import Mathlib

/-!
Verification of the composition engine of `halotools.empirical_models.model_factories`
(`SubhaloModelFactory`, the flat one-property-per-slot variant, and `HodModelFactory`,
the typed one-feature-slot-per-galaxy-type variant).

The embedding models Python dictionaries as association lists over `String` keys
(`alookup` is `d[k]` returning `Option`, `insertItem` is `d[k] = v`, which updates an
existing binding in place and otherwise appends, exactly like CPython dict assignment;
`dictOfItems` is `dict(list_of_pairs)`, later pairs winning).  Errors raised by the
Python code (`KeyError`, `AttributeError`) are modelled with `Except PyErr`.
Numeric parameter values are a type parameter `V`; occupation bounds and coordinates
are `ℚ` (the source operates on Python/numpy floats; the claims under study are about
structural dict/array manipulation, so exact rational arithmetic stands in for float
arithmetic).  Where Python iterates a `set` (whose iteration order is hash-dependent),
the embedding determinizes to first-occurrence order; no claim depends on that order
except through "names one colliding key", which is preserved.
-/

/-- Python exception surface relevant to the factories: `KeyError` (payload: the key or
message text of the raise) and `AttributeError` (payload: the missing attribute). -/
inductive PyErr where
  | keyError (k : String)
  | attributeError (a : String)
deriving DecidableEq, Repr

/-- Dictionary lookup `d[k]` as an association-list scan (first match). -/
def alookup {κ β : Type} [DecidableEq κ] (k : κ) : List (κ × β) → Option β
  | [] => none
  | kv :: rest => if kv.1 = k then some kv.2 else alookup k rest

/-- The keys of an association-list dictionary, in insertion order (`list(d)`). -/
def dkeys {κ β : Type} (d : List (κ × β)) : List κ := d.map Prod.fst

/-- CPython dict assignment `d[k] = v`: update the existing binding in place
(keeping its position) if `k` is present, else append the new binding. -/
def insertItem {κ β : Type} [DecidableEq κ] (d : List (κ × β)) (k : κ) (v : β) :
    List (κ × β) :=
  if (alookup k d).isSome then
    d.map (fun kv => if kv.1 = k then (k, v) else kv)
  else d ++ [(k, v)]

/-- `dict(pairs)`: fold dict assignment over a list of pairs (later pairs win). -/
def dictOfItems {κ β : Type} [DecidableEq κ] (l : List (κ × β)) : List (κ × β) :=
  l.foldl (fun d kv => insertItem d kv.1 kv.2) []

/-- Whether an `Except` computation finished without raising. -/
def exceptOk {ε α : Type} : Except ε α → Bool
  | .ok _ => true
  | .error _ => false

instance {e a : Type} [DecidableEq e] [DecidableEq a] : DecidableEq (Except e a) :=
  fun x y =>
    match x, y with
    | .error e1, .error e2 =>
      if h : e1 = e2 then isTrue (by rw [h]) else isFalse (fun he => h (by injection he))
    | .error _, .ok _ => isFalse (fun he => Except.noConfusion he)
    | .ok _, .error _ => isFalse (fun he => Except.noConfusion he)
    | .ok x1, .ok y1 =>
      if h : x1 = y1 then isTrue (by rw [h]) else isFalse (fun he => h (by injection he))

/-- Dictionary subscript that raises `KeyError` on a missing key, `d[k]` in Python. -/
def lookupKE {β : Type} (l : List (String × β)) (k : String) : Except PyErr β :=
  match alookup k l with
  | some x => .ok x
  | none => .error (.keyError k)

/-- A Python dict with `String` keys. -/
abbrev PyDict (V : Type) := List (String × V)

/-- The blueprint key reserved for the mock factory collaborator
(`'mock_factory'`, filtered out of the galprop/gal-type key lists). -/
def mockFactoryKey : String := "mock_factory"

/-- A component model of the flat (`SubhaloModelFactory`) variant.  The factory is
duck-typed: every capability except the self-reported identity `galprop_key` is
optional (`hasattr` probes), so optional capabilities are `Option`/default-valued
fields.  Values of `new_haloprop_func_dict` are function objects, identified by `Nat`
object ids. -/
structure GalpropModel (V : Type) where
  galprop_key : String
  param_dict : Option (PyDict V) := none
  prim_haloprop_key : Option String := none
  sec_haloprop_key : Option String := none
  publications : List String := []
  new_haloprop_func_dict : Option (PyDict Nat) := none

/-- The namespacing rule of `SubhaloModelFactory._set_init_param_dict` (line 263):
a private key `k` becomes `galprop_key + '_' + k`. -/
def nsKey (ident k : String) : String := ident ++ "_" ++ k

/-- The dict comprehension
`{galprop_model.galprop_key+'_'+key: val for key, val in galprop_model.param_dict.items()}`. -/
def namespaceDict {V : Type} (ident : String) (d : PyDict V) : PyDict V :=
  d.map (fun kv => (nsKey ident kv.1, kv.2))

/-- The namespaced private parameter dictionary a flat-variant component model
contributes: empty when the model has no `param_dict` attribute (lines 261-266). -/
def nsDict {V : Type} (m : GalpropModel V) : PyDict V :=
  match m.param_dict with
  | some d => namespaceDict m.galprop_key d
  | none => []

/-- A flat-variant model blueprint: slot key (galprop name) to component model.
The `'mock_factory'` entry added by `_interpret_input_model_blueprint` carries no
component model and is excluded from every component iteration by the
`key is not 'mock_factory'` filters, so the embedding keeps it out of the
association list; theorems assume no slot is named `'mock_factory'`. -/
abbrev SubhaloBlueprint (V : Type) := List (String × GalpropModel V)

/-- One step of the `_set_init_param_dict` merge loop, shared by both variants:
given the dict `d` contributed by the next component model, check
`set(self.param_dict) & set(d)` (modelled as the accumulator keys that occur in `d`,
in accumulator order) and either raise `KeyError` naming a colliding key (lines
268-272 / 583-587) or merge with `dict(d.items() + self.param_dict.items())`
(lines 275-278 / 590-593). -/
def mergeParamLoop {α V : Type} (f : α → Except PyErr (PyDict V)) :
    List α → PyDict V → Except PyErr (PyDict V)
  | [], acc => .ok acc
  | x :: xs, acc =>
    match f x with
    | .error e => .error e
    | .ok d =>
      match (dkeys acc).filter (fun k => (alookup k d).isSome) with
      | [] => mergeParamLoop f xs (dictOfItems (d ++ acc))
      | k :: _ => .error (.keyError k)

/-- Per-slot contribution of the flat variant: look up the component model under the
slot key and namespace its (optional) private parameter dict (lines 258-266). -/
def fSub {V : Type} (bp : SubhaloBlueprint V) (g : String) : Except PyErr (PyDict V) :=
  match alookup g bp with
  | some m => .ok (nsDict m)
  | none => .error (.keyError g)

/-- `SubhaloModelFactory._set_init_param_dict` (lines 236-280), returning the merged
composite `param_dict` (the snapshot `_init_param_dict = copy(param_dict)` is taken
by the construction wrapper). -/
def subhaloSetInitParamDict {V : Type} (bp : SubhaloBlueprint V) (gl : List String) :
    Except PyErr (PyDict V) :=
  mergeParamLoop (fSub bp) gl []

/-- Error message of the `galprop_sequence` set-mismatch `KeyError` (lines 193-194). -/
def galpropSequenceErrMsg : String :=
  "The input galprop_sequence keyword argument must have the same list of galprops as the input model blueprint"

/-- Resolution of the evaluation order in `SubhaloModelFactory._build_composite_lists`
(lines 190-198): the unordered list is the blueprint keys without `'mock_factory'`;
an explicit `galprop_sequence` is accepted iff its key set equals the unordered key
set as Python sets (membership only). -/
def subhaloGalpropList {V : Type} (bp : SubhaloBlueprint V)
    (seq : Option (List String)) : Except PyErr (List String) :=
  let unordered := (dkeys bp).filter (fun k => k ≠ mockFactoryKey)
  match seq with
  | some s =>
    if s.toFinset = unordered.toFinset then .ok s
    else .error (.keyError galpropSequenceErrMsg)
  | none => .ok unordered

/-- `SubhaloModelFactory._get_stripped_param_dict` (lines 282-297): rebuild the
component's private dict by looking up `galprop + '_' + key` in the composite
`param_dict` for each private key; a missing composite key raises `KeyError`. -/
def getStrippedParamDict {V : Type} (bp : SubhaloBlueprint V) (paramDict : PyDict V)
    (galprop : String) : Except PyErr (PyDict V) :=
  match alookup galprop bp with
  | none => .error (.keyError galprop)
  | some m =>
    let ks := match m.param_dict with
      | some d => dkeys d
      | none => []
    ks.foldlM
      (fun out k =>
        match alookup (nsKey galprop k) paramDict with
        | some v => .ok (insertItem out k v)
        | none => .error (.keyError (nsKey galprop k)))
      []

/-- The dict comprehension of the spec's round-trip property,
`{k: param_dict[k] for k in ks}` (raising `KeyError` on a missing key). -/
def dictComprehension {V : Type} (paramDict : PyDict V) (ks : List String) :
    Except PyErr (PyDict V) :=
  ks.foldlM
    (fun out k =>
      match alookup k paramDict with
      | some v => .ok (insertItem out k v)
      | none => .error (.keyError k))
    []

/-- A Python-2 runtime value that is either still a dict or has become a plain list of
key-value pairs.  The `new_haloprop_func_dict` accumulator of `_build_composite_lists`
(both variants) starts as `{}` but is reassigned to
`new_haloprop_func_dict.items() + component.new_haloprop_func_dict.items()`
without a `dict(...)` wrapper (lines 222-225 and 642-645), which in Python 2 produces
a *list* of pairs, so the dynamic type must be tracked. -/
inductive PyVal (β : Type) where
  | dict (d : List (String × β))
  | list (l : List (String × β))
deriving DecidableEq, Repr

/-- An element of a Python `set` built from a `PyVal`: iterating a dict yields its
keys (strings), iterating a list of pairs yields the pairs (tuples). -/
inductive PySetElem (β : Type) where
  | str (s : String)
  | pair (p : String × β)
deriving DecidableEq, Repr

/-- `set(v)` for a `PyVal`. -/
def PyVal.toSetElems {β : Type} : PyVal β → List (PySetElem β)
  | .dict d => (dkeys d).map PySetElem.str
  | .list l => l.map PySetElem.pair

/-- One step of the `new_haloprop_func_dict` accumulation (lines 218-230 / 638-650):
compute `set(acc).intersection(set(component_dict))`; if nonempty raise `KeyError`
naming `list(intersection)[0]`; else evaluate `acc.items() + component_dict.items()`,
which raises `AttributeError` when `acc` has already been turned into a list. -/
def haloPropFuncStep {β : Type} [DecidableEq β] (acc : PyVal β)
    (compDict : List (String × β)) : Except PyErr (PyVal β) :=
  let compSet := (dkeys compDict).map (PySetElem.str (β := β))
  match acc.toSetElems.filter (fun e => e ∈ compSet) with
  | [] =>
    match acc with
    | .dict d => .ok (.list (d ++ compDict))
    | .list _ => .error (.attributeError "items")
  | e :: _ =>
    match e with
    | .str s => .error (.keyError s)
    | .pair p => .error (.keyError p.1)

/-- One component model's contribution to the flat variant's composite bookkeeping
lists (the loop body of `SubhaloModelFactory._build_composite_lists`, lines 204-230). -/
def subhaloCompositeStep {V : Type}
    (st : List String × List String × PyVal Nat) (m : GalpropModel V) :
    Except PyErr (List String × List String × PyVal Nat) :=
  let hp := st.1
  let hp := match m.prim_haloprop_key with
    | some k => hp ++ [k]
    | none => hp
  let hp := match m.sec_haloprop_key with
    | some k => hp ++ [k]
    | none => hp
  let pubs := st.2.1 ++ m.publications
  match m.new_haloprop_func_dict with
  | none => .ok (hp, pubs, st.2.2)
  | some d =>
    match haloPropFuncStep st.2.2 d with
    | .ok acc => .ok (hp, pubs, acc)
    | .error e => .error e

/-- The composite bookkeeping state bound by `_build_composite_lists`:
evaluation order, deduplicated halo-property keys, publications, and the
`new_haloprop_func_dict` accumulator (a `PyVal` because of the missing
`dict(...)` wrapper, see `haloPropFuncStep`). -/
structure SubhaloCompositeLists where
  galprop_list : List String
  haloprop_list : List String
  publications : List String
  new_haloprop_func_dict : PyVal Nat
deriving Repr

/-- Loop of `SubhaloModelFactory._build_composite_lists` over the evaluation order,
looking each component model up under its slot key. -/
def subhaloCompositeLoop {V : Type} (bp : SubhaloBlueprint V) :
    List String → (List String × List String × PyVal Nat) →
    Except PyErr (List String × List String × PyVal Nat)
  | [], st => .ok st
  | g :: gs, st =>
    match alookup g bp with
    | none => .error (.keyError g)
    | some m =>
      match subhaloCompositeStep st m with
      | .ok st2 => subhaloCompositeLoop bp gs st2
      | .error e => .error e

/-- `SubhaloModelFactory._build_composite_lists` (lines 185-234): resolve the
evaluation order (rejecting a `galprop_sequence` whose key set mismatches), then
aggregate halo-property keys (`list(set(...))` modelled as order-determinized
dedup), publications, and the `new_haloprop_func_dict` accumulator. -/
def subhaloBuildCompositeLists {V : Type} (bp : SubhaloBlueprint V)
    (seq : Option (List String)) : Except PyErr SubhaloCompositeLists :=
  match subhaloGalpropList bp seq with
  | .error e => .error e
  | .ok gl =>
    match subhaloCompositeLoop bp gl ([], [], .dict []) with
    | .error e => .error e
    | .ok st => .ok ⟨gl, st.1.dedup, st.2.1.dedup, st.2.2⟩

/-- A constructed flat composite model: the state `SubhaloModelFactory.__init__`
leaves on a successfully built instance.  `behaviors` records the names bound by
`_set_primary_behaviors` (`'mc_' + galprop` for each galprop, line 172); the bound
objects are `functools` closures over the live instance, so only their names are
state.  `init_param_dict` is the shallow `copy(self.param_dict)` of line 280. -/
structure SubhaloModel (V : Type) where
  model_blueprint : SubhaloBlueprint V
  galprop_list : List String
  haloprop_list : List String
  publications : List String
  new_haloprop_func_dict : PyVal Nat
  param_dict : PyDict V
  init_param_dict : PyDict V
  behaviors : List String

/-- `SubhaloModelFactory.__init__` (lines 134-142): interpret the blueprint, build
the composite lists, build and snapshot `param_dict`, then bind the primary
behaviors.  Any error propagates out of the constructor, so the caller receives
either a fully built model or no model at all. -/
def constructSubhalo {V : Type} (bp : SubhaloBlueprint V)
    (seq : Option (List String)) : Except PyErr (SubhaloModel V) :=
  match subhaloBuildCompositeLists bp seq with
  | .error e => .error e
  | .ok cl =>
    match subhaloSetInitParamDict bp cl.galprop_list with
    | .error e => .error e
    | .ok p =>
      .ok { model_blueprint := bp
            galprop_list := cl.galprop_list
            haloprop_list := cl.haloprop_list
            publications := cl.publications
            new_haloprop_func_dict := cl.new_haloprop_func_dict
            param_dict := p
            init_param_dict := p
            behaviors := cl.galprop_list.map (fun g => "mc_" ++ g) }

/-- A table row of the working galaxy catalog: column name to numeric value
(an astropy `Table` row, totalized; the factory only reads columns the mock
factory guarantees to exist). -/
abbrev HRow := String → ℚ

/-- A component model of the typed (`HodModelFactory`) variant.  Capabilities are
duck-typed exactly as probed by the factory: `methods` is the component object's
attribute table of callables (function-object ids, so `getattr` is `alookup` and
`hasattr` is `Option.isSome`); `halo_methods` is the attribute table of its
`halo_prof_model`.  `identity` is the component's self-reported identity string in
the sense of the spec's namespacing rule; the `HodModelFactory` code never reads it.
`mc_pos_fn` is the profile component's own `mc_pos` position sampler. -/
structure HodComponent (V : Type) where
  identity : String := ""
  param_dict : Option (PyDict V) := none
  occupation_bound : Option ℚ := none
  methods : List (String × Nat) := []
  halo_methods : List (String × Nat) := []
  prof_param_keys : Option (List String) := none
  halo_boundary : String := ""
  mc_pos_fn : List HRow → (List ℚ × List ℚ × List ℚ) := fun _ => ([], [], [])
  prim_haloprop_key : Option String := none
  sec_haloprop_key : Option String := none
  publications : List String := []
  new_haloprop_func_dict : Option (PyDict Nat) := none

/-- A typed-variant blueprint: galaxy-type key to feature dictionary (feature key to
component model).  As with the flat variant, the `'mock_factory'` entry is kept out
of the association list. -/
abbrev HodBlueprint (V : Type) := List (String × List (String × HodComponent V))

/-- Feature key of the occupation component (`'occupation'`). -/
def occupationKey : String := "occupation"

/-- Feature key of the profile component (`'profile'`). -/
def profileKey : String := "profile"

/-- Collection loop of `HodModelFactory._set_gal_types` (lines 415-420): for every
galaxy type (blueprint keys without `'mock_factory'`, in declaration order) read
`blueprint[gal_type]['occupation'].occupation_bound`; a missing feature raises
`KeyError`, a missing bound raises `AttributeError`. -/
def galTypePairsLoop {V : Type} (bp : HodBlueprint V) :
    List String → Except PyErr (List (String × ℚ))
  | [] => .ok []
  | t :: ts =>
    match alookup t bp with
    | none => .error (.keyError t)
    | some fd =>
      match alookup occupationKey fd with
      | none => .error (.keyError occupationKey)
      | some occ =>
        match occ.occupation_bound with
        | none => .error (.attributeError "occupation_bound")
        | some b =>
          match galTypePairsLoop bp ts with
          | .ok rest => .ok ((t, b) :: rest)
          | .error e => .error e

/-- The (gal_type, occupation_bound) pairs in blueprint declaration order. -/
def galTypePairs {V : Type} (bp : HodBlueprint V) : Except PyErr (List (String × ℚ)) :=
  galTypePairsLoop bp ((dkeys bp).filter (fun k => k ≠ mockFactoryKey))

/-- Comparison used to sort galaxy types: ascending occupation bound. -/
def boundLe (a b : String × ℚ) : Prop := a.2 ≤ b.2

instance : DecidableRel boundLe := fun a b => inferInstanceAs (Decidable (a.2 ≤ b.2))

instance : IsTotal (String × ℚ) boundLe := ⟨fun a b => le_total a.2 b.2⟩

instance : IsTrans (String × ℚ) boundLe := ⟨fun _ _ _ h1 h2 => le_trans h1 h2⟩

/-- `HodModelFactory._set_gal_types` (lines 407-430): `np.argsort` over the
occupation bounds followed by reindexing the gal-type list.  `np.argsort`'s default
sort resolves to a stable insertion sort on arrays shorter than 16 elements (the
regime of every blueprint: a handful of galaxy types), so the reindexed list is the
stable ascending-by-bound sort of the (gal_type, bound) pairs. -/
def hodGalTypes {V : Type} (bp : HodBlueprint V) : Except PyErr (List String) :=
  match galTypePairs bp with
  | .ok ps => .ok ((List.insertionSort boundLe ps).map Prod.fst)
  | .error e => .error e

/-- Per-component contribution of the typed variant's `_set_init_param_dict`
(line 583): `model_instance.param_dict` is read without a `hasattr` guard, so a
component model without a private parameter dictionary raises `AttributeError`;
the keys are merged verbatim (no namespacing). -/
def fHod {V : Type} (c : HodComponent V) : Except PyErr (PyDict V) :=
  match c.param_dict with
  | some d => .ok d
  | none => .error (.attributeError "param_dict")

/-- Outer loop of `HodModelFactory._set_init_param_dict` (lines 575-593): for every
galaxy type in sorted order, merge the private parameter dicts of all of its feature
components (`gal_type_dict.values()`, in feature declaration order). -/
def hodSetInitOuter {V : Type} (bp : HodBlueprint V) :
    List String → PyDict V → Except PyErr (PyDict V)
  | [], acc => .ok acc
  | t :: ts, acc =>
    match alookup t bp with
    | none => .error (.keyError t)
    | some fd =>
      match mergeParamLoop fHod (fd.map Prod.snd) acc with
      | .ok acc2 => hodSetInitOuter bp ts acc2
      | .error e => .error e

/-- `HodModelFactory._set_init_param_dict` (lines 556-595). -/
def hodSetInitParamDict {V : Type} (bp : HodBlueprint V) (ts : List String) :
    Except PyErr (PyDict V) :=
  hodSetInitOuter bp ts []

/-- The flattened component list the typed `_set_init_param_dict` iterates over,
used to state its characterization. -/
def hodFlatten {V : Type} (bp : HodBlueprint V) : List String → List (HodComponent V)
  | [] => []
  | t :: ts => ((alookup t bp).getD []).map Prod.snd ++ hodFlatten bp ts

/-- Per-component step of `HodModelFactory._build_composite_lists` (lines 620-650):
haloprop keys, profile-parameter keys, publications, and the `new_haloprop_func_dict`
accumulation with its missing `dict(...)` wrapper. -/
def hodCompositeStep {V : Type}
    (st : List String × List String × List String × PyVal Nat) (m : HodComponent V) :
    Except PyErr (List String × List String × List String × PyVal Nat) :=
  let hp := st.1
  let hp := match m.prim_haloprop_key with
    | some k => hp ++ [k]
    | none => hp
  let hp := match m.sec_haloprop_key with
    | some k => hp ++ [k]
    | none => hp
  let ppk := match m.prof_param_keys with
    | some ks => st.2.1 ++ ks
    | none => st.2.1
  let pubs := st.2.2.1 ++ m.publications
  match m.new_haloprop_func_dict with
  | none => .ok (hp, ppk, pubs, st.2.2.2)
  | some d =>
    match haloPropFuncStep st.2.2.2 d with
    | .ok acc => .ok (hp, ppk, pubs, acc)
    | .error e => .error e

/-- Loop of `HodModelFactory._build_composite_lists` over the flattened components. -/
def hodCompositeLoop {V : Type} :
    List (HodComponent V) → (List String × List String × List String × PyVal Nat) →
    Except PyErr (List String × List String × List String × PyVal Nat)
  | [], st => .ok st
  | m :: ms, st =>
    match hodCompositeStep st m with
    | .ok st2 => hodCompositeLoop ms st2
    | .error e => .error e

/-- The composite bookkeeping lists of the typed variant. -/
structure HodCompositeLists where
  haloprop_list : List String
  prof_param_keys : List String
  publications : List String
  new_haloprop_func_dict : PyVal Nat
deriving Repr

/-- `HodModelFactory._build_composite_lists` (lines 607-655). -/
def hodBuildCompositeLists {V : Type} (bp : HodBlueprint V) (ts : List String) :
    Except PyErr HodCompositeLists :=
  match hodCompositeLoop (hodFlatten bp ts) ([], [], [], .dict []) with
  | .ok st => .ok ⟨st.1.dedup, st.2.1.dedup, st.2.2.1.dedup, st.2.2.2⟩
  | .error e => .error e

/-- A dynamically bound attribute value on the composite model instance.
`func` is a plain function object obtained via `getattr` (identified by its object
id, so propositional equality of `func` values models Python object identity);
`mcOcc`/`meanOcc`/`pos` are the fresh `functools` closure objects created by the
occupation and position bindings; `base` marks a pre-existing (statically defined)
attribute of the instance or class. -/
inductive AttrVal where
  | func (id : Nat)
  | mcOcc (t : String) (id : Nat)
  | meanOcc (t : String) (id : Nat)
  | pos (t : String)
  | base
deriving DecidableEq, Repr

/-- The attribute table of the composite model instance (only name-value pairs;
`setattr` is dict assignment, `hasattr`/`getattr` are lookups). -/
abbrev Attrs := List (String × AttrVal)

/-- `setattr(self, n, v)`. -/
def setattrA (a : Attrs) (n : String) (v : AttrVal) : Attrs := insertItem a n v

/-- Name of the per-type Monte Carlo occupation generator (line 452). -/
def mcOccName (t : String) : String := "mc_occupation_" ++ t

/-- Name of the per-type mean occupation accessor (line 461). -/
def meanOccName (t : String) : String := "mean_occupation_" ++ t

/-- Name of the per-type position generator (line 484). -/
def posName (t : String) : String := "pos_" ++ t

/-- Name of the shared halo-level profile-parameter accessor (line 473). -/
def genHaloName (k : String) : String := k ++ "_halos"

/-- Name of the per-type profile-parameter accessor (line 478). -/
def genGalName (k t : String) : String := k ++ "_" ++ t

/-- Method name of the Monte Carlo occupation generator on the component
(`'mc_occupation'`). -/
def mcOccupationKey : String := "mc_occupation"

/-- Method name of the mean occupation accessor on the component
(`'mean_occupation'`). -/
def meanOccupationKey : String := "mean_occupation"

/-- The profile component of a galaxy type (`model_blueprint[t]['profile']`). -/
def hodProf {V : Type} (bp : HodBlueprint V) (t : String) : Option (HodComponent V) :=
  (alookup t bp).bind (alookup profileKey)

/-- The occupation component of a galaxy type (`model_blueprint[t]['occupation']`). -/
def hodOcc {V : Type} (bp : HodBlueprint V) (t : String) : Option (HodComponent V) :=
  (alookup t bp).bind (alookup occupationKey)

/-- The profile-parameter keys declared by a galaxy type's profile component. -/
def hodProfKeys {V : Type} (bp : HodBlueprint V) (t : String) : List String :=
  ((hodProf bp t).bind (fun p => p.prof_param_keys)).getD []

/-- Inner loop over `gal_prof_model.prof_param_keys` (lines 471-480): bind the shared
`<key>_halos` accessor from `gal_prof_model.halo_prof_model` if it is not already
bound, then bind the per-type `<key>_<gal_type>` accessor from `gal_prof_model`
itself.  Both are plain `getattr` results, so the underlying function objects are
bound, not copies. -/
def bindProfKeys {V : Type} (prof : HodComponent V) (t : String) :
    List String → Attrs → Except PyErr Attrs
  | [], a => .ok a
  | k :: ks, a =>
    match
      (if (alookup (genHaloName k) a).isSome then .ok a
       else
         match alookup k prof.halo_methods with
         | some f => .ok (setattrA a (genHaloName k) (.func f))
         | none => .error (.attributeError k) : Except PyErr Attrs)
    with
    | .error e => .error e
    | .ok a1 =>
      match alookup k prof.methods with
      | some g => bindProfKeys prof t ks (setattrA a1 (genGalName k t) (.func g))
      | none => .error (.attributeError k)

/-- Per-type body of the first loop of `HodModelFactory._set_primary_behaviors`
(lines 448-486): bind `mc_occupation_<t>` (a fresh `functools` closure over the live
`param_dict`), optionally `mean_occupation_<t>`, the profile-parameter accessors, and
`pos_<t>`. -/
def bindGalType {V : Type} (bp : HodBlueprint V) (t : String) (a : Attrs) :
    Except PyErr Attrs :=
  match alookup t bp with
  | none => .error (.keyError t)
  | some fd =>
    match alookup occupationKey fd with
    | none => .error (.keyError occupationKey)
    | some occ =>
      match alookup mcOccupationKey occ.methods with
      | none => .error (.attributeError mcOccupationKey)
      | some mco =>
        let a := setattrA a (mcOccName t) (.mcOcc t mco)
        let a := match alookup meanOccupationKey occ.methods with
          | some meo => setattrA a (meanOccName t) (.meanOcc t meo)
          | none => a
        match alookup profileKey fd with
        | none => .error (.keyError profileKey)
        | some prof =>
          match prof.prof_param_keys with
          | none => .error (.attributeError "prof_param_keys")
          | some ks =>
            match bindProfKeys prof t ks a with
            | .error e => .error e
            | .ok a2 => .ok (setattrA a2 (posName t) (.pos t))

/-- First loop of `_set_primary_behaviors`: over galaxy types in sorted order. -/
def bindLoop1 {V : Type} (bp : HodBlueprint V) :
    List String → Attrs → Except PyErr Attrs
  | [], a => .ok a
  | t :: ts, a =>
    match bindGalType bp t a with
    | .ok a2 => bindLoop1 bp ts a2
    | .error e => .error e

/-- Inner loop of the final fallback pass (lines 489-494): for one profile-parameter
key, give every galaxy type that did not bind its own accessor the already-bound
shared `<key>_halos` accessor object (the same object, via `getattr` on `self`). -/
def fallbackTypes (k : String) : List String → Attrs → Except PyErr Attrs
  | [], a => .ok a
  | t :: ts, a =>
    if (alookup (genGalName k t) a).isSome then fallbackTypes k ts a
    else
      match alookup (genHaloName k) a with
      | some b => fallbackTypes k ts (setattrA a (genGalName k t) b)
      | none => .error (.attributeError (genHaloName k))

/-- Final fallback pass of `_set_primary_behaviors` (lines 488-494), over the
composite `prof_param_keys` aggregate. -/
def bindLoop2 (ts : List String) : List String → Attrs → Except PyErr Attrs
  | [], a => .ok a
  | k :: ks, a =>
    match fallbackTypes k ts a with
    | .ok a2 => bindLoop2 ts ks a2
    | .error e => .error e

/-- `HodModelFactory._set_primary_behaviors` (lines 432-494). -/
def setPrimaryBehaviorsHod {V : Type} (bp : HodBlueprint V) (ts : List String)
    (ppks : List String) (a0 : Attrs) : Except PyErr Attrs :=
  match bindLoop1 bp ts a0 with
  | .ok a1 => bindLoop2 ts ppks a1
  | .error e => .error e

/-- Modelled from the spec: `model_defaults.host_haloprop_prefix` (the
`model_defaults` module is not part of the provided source).  The spec only
requires it to be the fixed prefix of host-halo catalog column names; its exact
text is immaterial to every claim. -/
def hostHalopropHead : String := "halo_"

/-- `HodModelFactory.mc_pos` (lines 496-543): call the profile component's own
position sampler, rescale each coordinate array elementwise by the host halo's
boundary-radius column divided by 1000, then recenter by adding the host halo's
position columns. -/
def mcPosHod {V : Type} (bp : HodBlueprint V) (t : String) (table : List HRow) :
    Except PyErr (List ℚ × List ℚ × List ℚ) :=
  match hodProf bp t with
  | none => .error (.keyError t)
  | some prof =>
    let s := prof.mc_pos_fn table
    let bKey := hostHalopropHead ++ prof.halo_boundary
    let rs := table.map (fun row => row bKey)
    let x1 := List.zipWith (fun x r => x * (r / 1000)) s.1 rs
    let y1 := List.zipWith (fun y r => y * (r / 1000)) s.2.1 rs
    let z1 := List.zipWith (fun z r => z * (r / 1000)) s.2.2 rs
    let xs := List.zipWith (fun x c => x + c) x1 (table.map (fun row => row (hostHalopropHead ++ "x")))
    let ys := List.zipWith (fun y c => y + c) y1 (table.map (fun row => row (hostHalopropHead ++ "y")))
    let zs := List.zipWith (fun z c => z + c) z1 (table.map (fun row => row (hostHalopropHead ++ "z")))
    .ok (xs, ys, zs)

/-- A constructed typed composite model. -/
structure HodModel (V : Type) where
  model_blueprint : HodBlueprint V
  gal_types : List String
  occupation_bound : List (String × ℚ)
  param_dict : PyDict V
  init_param_dict : PyDict V
  haloprop_list : List String
  prof_param_keys : List String
  publications : List String
  new_haloprop_func_dict : PyVal Nat
  attrs : Attrs

/-- `HodModelFactory.__init__` (lines 336-370): set the (sorted) galaxy types, build
and snapshot `param_dict`, build the composite lists, then bind the primary
behaviors on top of the statically defined attributes `a0`.  Any error propagates
out of the constructor before any later stage runs. -/
def constructHod {V : Type} (bp : HodBlueprint V) (a0 : Attrs) :
    Except PyErr (HodModel V) :=
  match galTypePairs bp with
  | .error e => .error e
  | .ok ps =>
    let sorted := List.insertionSort boundLe ps
    let ts := sorted.map Prod.fst
    match hodSetInitParamDict bp ts with
    | .error e => .error e
    | .ok p =>
      match hodBuildCompositeLists bp ts with
      | .error e => .error e
      | .ok cl =>
        match setPrimaryBehaviorsHod bp ts cl.prof_param_keys a0 with
        | .error e => .error e
        | .ok attrs =>
          .ok { model_blueprint := bp
                gal_types := ts
                occupation_bound := sorted
                param_dict := p
                init_param_dict := p
                haloprop_list := cl.haloprop_list
                prof_param_keys := cl.prof_param_keys
                publications := cl.publications
                new_haloprop_func_dict := cl.new_haloprop_func_dict
                attrs := attrs }

/-- A heap of Python dict objects, for the claims about object identity and
aliasing: references are allocation-ordered `Nat`s, and every live reference is
below `next`. -/
structure DictHeap (V : Type) where
  next : Nat
  cells : List (Nat × PyDict V)

/-- The empty heap. -/
def DictHeap.empty {V : Type} : DictHeap V := ⟨0, []⟩

/-- Dereference a dict object (unallocated references read as empty). -/
def DictHeap.read {V : Type} (h : DictHeap V) (r : Nat) : PyDict V :=
  (alookup r h.cells).getD []

/-- Overwrite the contents of a dict object. -/
def DictHeap.write {V : Type} (h : DictHeap V) (r : Nat) (d : PyDict V) : DictHeap V :=
  ⟨h.next, insertItem h.cells r d⟩

/-- Allocate a fresh dict object (a `{}` display, a `dict(...)` call or a
`copy.copy` all create new objects). -/
def DictHeap.alloc {V : Type} (h : DictHeap V) (d : PyDict V) : Nat × DictHeap V :=
  (h.next, ⟨h.next + 1, insertItem h.cells h.next d⟩)

/-- In-place item assignment `heap[r][k] = v` (what a caller mutating
`model.param_dict[k]` performs). -/
def DictHeap.setItem {V : Type} (h : DictHeap V) (r : Nat) (k : String) (v : V) :
    DictHeap V :=
  h.write r (insertItem (h.read r) k v)

/-- The runtime attribute state of a constructed `SubhaloModelFactory` instance
relevant to parameter aliasing: which dict object `self.param_dict` and
`self._init_param_dict` currently name. -/
structure SubhaloRT (V : Type) where
  blueprint : SubhaloBlueprint V
  galprop_list : List String
  param_ref : Nat
  init_ref : Nat

/-- Heap-level construction: build the composite `param_dict` value, allocate the
final `param_dict` object, then allocate `_init_param_dict = copy(self.param_dict)`
(line 280) as a distinct object with equal contents.  The intermediate dict objects
created by each merge iteration are unreachable afterwards and are not modelled. -/
def constructSubhaloRT {V : Type} (bp : SubhaloBlueprint V) (gl : List String)
    (h : DictHeap V) : Except PyErr (SubhaloRT V × DictHeap V) :=
  match subhaloSetInitParamDict bp gl with
  | .error e => .error e
  | .ok p =>
    let a1 := h.alloc p
    let a2 := a1.2.alloc p
    .ok (⟨bp, gl, a1.1, a2.1⟩, a2.2)

/-- `SubhaloModelFactory.restore_init_param_dict` (lines 300-308):
`self.param_dict = self._init_param_dict` rebinds the attribute to the *same* dict
object as the snapshot — no copy is taken.  (The re-binding of primary behaviors on
line 308 creates fresh closures over the live instance and does not touch either
dict object.) -/
def restoreInitParamDictRT {V : Type} (s : SubhaloRT V) : SubhaloRT V :=
  { s with param_ref := s.init_ref }

/-- A caller mutating one entry of the live `param_dict`
(`model.param_dict[k] = v`). -/
def mutateParamRT {V : Type} (h : DictHeap V) (s : SubhaloRT V) (k : String) (v : V) :
    DictHeap V :=
  h.setItem s.param_ref k v

/-- Heap-level `_get_stripped_param_dict`: `output_param_dict = {}` allocates a fresh
dict object (line 293), which is filled from the composite `param_dict` and
returned. -/
def getStrippedParamDictRT {V : Type} (h : DictHeap V) (s : SubhaloRT V)
    (galprop : String) : Except PyErr (Nat × DictHeap V) :=
  match getStrippedParamDict s.blueprint (h.read s.param_ref) galprop with
  | .error e => .error e
  | .ok d => .ok (h.alloc d)

/-- Typed-variant occupation component with identity string `"occ"` and private
parameter dictionary `{'a': 1}`. -/
def exOccC1 : HodComponent ℤ :=
  { identity := "occ"
    param_dict := some [("a", 1)]
    occupation_bound := some 1
    methods := [(mcOccupationKey, 1)] }

/-- Typed-variant profile component with an empty private parameter dictionary. -/
def exProfC1 : HodComponent ℤ :=
  { identity := "prof"
    param_dict := some []
    prof_param_keys := some [] }

/-- One-type typed blueprint whose occupation component self-reports identity
`"occ"` and owns private key `'a'`. -/
def exBpC1 : HodBlueprint ℤ :=
  [("centrals", [(occupationKey, exOccC1), (profileKey, exProfC1)])]

/-- Typed-variant occupation component with no private parameter dictionary at
all (the attribute the typed parameter merge reads unguarded is absent). -/
def exCompC1m : HodComponent ℤ :=
  { identity := "occ"
    occupation_bound := some 1
    methods := [(mcOccupationKey, 1)] }

/-- One-type typed blueprint whose single feature component lacks a private
`param_dict`. -/
def exBpC1m : HodBlueprint ℤ :=
  [("centrals", [(occupationKey, exCompC1m)])]

/-- Flat component model with identity `"m"` and private parameter `{'a': 1}`. -/
def exModelC2 : GalpropModel ℤ := { galprop_key := "m", param_dict := some [("a", 1)] }

/-- One-slot flat blueprint whose slot key equals the model's identity. -/
def exBpC2 : SubhaloBlueprint ℤ := [("m", exModelC2)]

/-- The mutate/restore/mutate/restore scenario on a freshly constructed flat model:
construct, set `param_dict['m_a'] = 2`, call `restore_init_param_dict`, set
`param_dict['m_a'] = 3`, call `restore_init_param_dict` again, and read
`param_dict['m_a']`. -/
def c2FinalRead : Except PyErr (Option ℤ) :=
  match constructSubhaloRT exBpC2 ["m"] DictHeap.empty with
  | .error e => .error e
  | .ok sh =>
    let s0 := sh.1
    let h1 := mutateParamRT sh.2 s0 (nsKey "m" "a") 2
    let s1 := restoreInitParamDictRT s0
    let h2 := mutateParamRT h1 s1 (nsKey "m" "a") 3
    let s2 := restoreInitParamDictRT s1
    .ok (alookup (nsKey "m" "a") (h2.read s2.param_ref))

/-- The same scenario stopped after the first restore (which still reads the
construction-time value). -/
def c2FirstRestoreRead : Except PyErr (Option ℤ) :=
  match constructSubhaloRT exBpC2 ["m"] DictHeap.empty with
  | .error e => .error e
  | .ok sh =>
    let s0 := sh.1
    let h1 := mutateParamRT sh.2 s0 (nsKey "m" "a") 2
    let s1 := restoreInitParamDictRT s0
    .ok (alookup (nsKey "m" "a") (h1.read s1.param_ref))

/-- Flat component model registered under slot `"sfr"` but self-reporting identity
`"stellar_mass"`. -/
def exModelC3 : GalpropModel ℤ :=
  { galprop_key := "stellar_mass", param_dict := some [("a", 1)] }

/-- One-slot flat blueprint whose slot key differs from the model's self-reported
identity. -/
def exBpC3 : SubhaloBlueprint ℤ := [("sfr", exModelC3)]

/-- Flat model contributing auxiliary function key `'f'`. -/
def exM5a : GalpropModel ℤ := { galprop_key := "ga", new_haloprop_func_dict := some [("f", 10)] }

/-- Flat model also contributing auxiliary function key `'f'` (a collision). -/
def exM5b : GalpropModel ℤ := { galprop_key := "gb", new_haloprop_func_dict := some [("f", 20)] }

/-- Flat model contributing the distinct auxiliary function key `'g'`. -/
def exM5c : GalpropModel ℤ := { galprop_key := "gb", new_haloprop_func_dict := some [("g", 30)] }

/-- Two-slot flat blueprint with a colliding auxiliary-function key. -/
def exBpC5coll : SubhaloBlueprint ℤ := [("ga", exM5a), ("gb", exM5b)]

/-- Two-slot flat blueprint with disjoint auxiliary-function keys. -/
def exBpC5disj : SubhaloBlueprint ℤ := [("ga", exM5a), ("gb", exM5c)]

/-- One-slot flat blueprint with a single auxiliary-function contributor. -/
def exBpC5one : SubhaloBlueprint ℤ := [("ga", exM5a)]

/-- Flat model with no private parameter dictionary. -/
def exMA : GalpropModel ℤ := { galprop_key := "a" }

/-- Flat model with private parameter `{'p': 1}`. -/
def exMB : GalpropModel ℤ := { galprop_key := "b", param_dict := some [("p", 1)] }

/-- Two-slot flat blueprint used for the ordering-sequence claims. -/
def exBpC6 : SubhaloBlueprint ℤ := [("a", exMA), ("b", exMB)]

/-- A typed occupation component with the given occupation bound. -/
def exOccBound (b : ℚ) : HodComponent ℤ :=
  { occupation_bound := some b, param_dict := some [] }

/-- The spec's three-type blueprint: centrals with bound 1, satellites with bound
20, orphans with bound 1, declared in that order. -/
def exBpC7 : HodBlueprint ℤ :=
  [("centrals", [(occupationKey, exOccBound 1)]),
   ("satellites", [(occupationKey, exOccBound 20)]),
   ("orphans", [(occupationKey, exOccBound 1)])]

/-- Centrals profile declaring profile-parameter key `'conc'`, with its own accessor
(object id 101) and its halo profile model's accessor (object id 201). -/
def exProfC8c : HodComponent ℤ :=
  { param_dict := some []
    prof_param_keys := some ["conc"]
    methods := [("conc", 101)]
    halo_methods := [("conc", 201)] }

/-- Satellites profile declaring no profile-parameter keys. -/
def exProfC8s : HodComponent ℤ :=
  { param_dict := some [], prof_param_keys := some [] }

/-- Occupation component for the behavior-binding example. -/
def exOccC8 (b : ℚ) : HodComponent ℤ :=
  { param_dict := some [], occupation_bound := some b, methods := [(mcOccupationKey, 1)] }

/-- Two-type typed blueprint where only centrals declare `'conc'`. -/
def exBpC8 : HodBlueprint ℤ :=
  [("centrals", [(occupationKey, exOccC8 1), (profileKey, exProfC8c)]),
   ("satellites", [(occupationKey, exOccC8 20), (profileKey, exProfC8s)])]

/-- The one-row galaxy table of the `mc_pos` round-trip: host position
(10, 20, 30), host boundary-radius column `'halo_mvir' = 200`. -/
def exRowC9 : HRow := fun c =>
  if c = hostHalopropHead ++ "x" then 10
  else if c = hostHalopropHead ++ "y" then 20
  else if c = hostHalopropHead ++ "z" then 30
  else if c = hostHalopropHead ++ "mvir" then 200
  else 0

/-- Profile component whose sampler returns the unit-sphere sample
(0.1, 0, 0) for any table, with halo boundary column `'mvir'`. -/
def exProfC9 : HodComponent ℤ :=
  { halo_boundary := "mvir", mc_pos_fn := fun _ => ([1/10], [0], [0]) }

/-- One-type typed blueprint for the `mc_pos` round-trip. -/
def exBpC9 : HodBlueprint ℤ := [("centrals", [(profileKey, exProfC9)])]

/-- Flat model with identity `"m"` (as `exModelC2`) used to build a duplicate
namespaced key from a second slot. -/
def exModelC4b : GalpropModel ℤ := { galprop_key := "m", param_dict := some [("a", 7)] }

/-- Two-slot flat blueprint whose two component models self-report the same
identity `"m"` and therefore produce the same namespaced key `'m_a'`. -/
def exBpC4 : SubhaloBlueprint ℤ := [("g1", exModelC2), ("g2", exModelC4b)]

/-- Typed occupation component owning raw private key `'p'`. -/
def exOccC4 : HodComponent ℤ :=
  { occupation_bound := some 1, param_dict := some [("p", 1)] }

/-- Typed profile component also owning raw private key `'p'` (a collision under
the typed variant's verbatim merge). -/
def exProfC4 : HodComponent ℤ :=
  { param_dict := some [("p", 2)], prof_param_keys := some [] }

/-- One-type typed blueprint with two feature components sharing private key `'p'`. -/
def exBpC4T : HodBlueprint ℤ :=
  [("centrals", [(occupationKey, exOccC4), (profileKey, exProfC4)])]

/-- The attribute table produced by `_set_primary_behaviors` on the two-type
blueprint `exBpC8` with gal types `['centrals', 'satellites']` and composite
`prof_param_keys` aggregate `['conc']`, starting from no bound attributes. -/
def c8A : Attrs :=
  [(mcOccName "centrals", AttrVal.mcOcc "centrals" 1),
   (genHaloName "conc", AttrVal.func 201),
   (genGalName "conc" "centrals", AttrVal.func 101),
   (posName "centrals", AttrVal.pos "centrals"),
   (mcOccName "satellites", AttrVal.mcOcc "satellites" 1),
   (posName "satellites", AttrVal.pos "satellites"),
   (genGalName "conc" "satellites", AttrVal.func 201)]

/-- The number of components among `xs` whose contributed parameter dictionary
contains key `k` (counting a component once per occurrence in the iteration order);
`k` is a colliding key exactly when this count is at least 2. -/
def keyCount {α V : Type} (f : α → Except PyErr (PyDict V)) (xs : List α)
    (k : String) : Nat :=
  xs.countP (fun x =>
    match f x with
    | .ok d => (alookup k d).isSome
    | .error _ => false)

/-- The heap of the constructed `exBpC2` model: object 0 is `param_dict`,
object 1 is the `_init_param_dict` copy, both containing `{'m_a': 1}`. -/
def hC10 : DictHeap ℤ := ⟨2, [(0, [("m_a", 1)]), (1, [("m_a", 1)])]⟩

/-- The attribute state of the constructed `exBpC2` model. -/
def sC10 : SubhaloRT ℤ := ⟨exBpC2, ["m"], 0, 1⟩

/-- The heap after `_get_stripped_param_dict('m')` allocated the fresh stripped
dict as object 2. -/
def h2C10 : DictHeap ℤ :=
  ⟨3, [(0, [("m_a", 1)]), (1, [("m_a", 1)]), (2, [("a", 1)])]⟩

/-! Association-list toolkit lemmas. -/

theorem dkeys_nil {κ β : Type} : dkeys ([] : List (κ × β)) = [] := rfl

theorem dkeys_cons {κ β : Type} (kv : κ × β) (l : List (κ × β)) :
    dkeys (kv :: l) = kv.1 :: dkeys l := rfl

theorem dkeys_append {κ β : Type} (l1 l2 : List (κ × β)) :
    dkeys (l1 ++ l2) = dkeys l1 ++ dkeys l2 := by
  simp [dkeys]

theorem alookup_isSome_iff {κ β : Type} [DecidableEq κ] (k : κ) (l : List (κ × β)) :
    (alookup k l).isSome = true ↔ k ∈ dkeys l := by
  induction l with
  | nil => simp [alookup, dkeys]
  | cons kv rest ih =>
    rw [dkeys_cons, List.mem_cons]
    by_cases h : kv.1 = k
    · simp [alookup, h]
    · rw [alookup, if_neg h, ih]
      constructor
      · intro hm
        exact Or.inr hm
      · intro hm
        cases hm with
        | inl he => exact absurd he.symm h
        | inr hm2 => exact hm2

theorem alookup_eq_none_iff {κ β : Type} [DecidableEq κ] (k : κ) (l : List (κ × β)) :
    alookup k l = none ↔ k ∉ dkeys l := by
  rw [← alookup_isSome_iff]
  cases alookup k l <;> simp

theorem alookup_append_left {κ β : Type} [DecidableEq κ] (k : κ)
    (l1 l2 : List (κ × β)) (v : β) (h : alookup k l1 = some v) :
    alookup k (l1 ++ l2) = some v := by
  induction l1 with
  | nil => exact absurd h (by simp [alookup])
  | cons kv rest ih =>
    rw [List.cons_append, alookup]
    rw [alookup] at h
    by_cases hk : kv.1 = k
    · rw [if_pos hk] at h ⊢
      exact h
    · rw [if_neg hk] at h ⊢
      exact ih h

theorem alookup_append_right {κ β : Type} [DecidableEq κ] (k : κ)
    (l1 l2 : List (κ × β)) (h : alookup k l1 = none) :
    alookup k (l1 ++ l2) = alookup k l2 := by
  induction l1 with
  | nil => rfl
  | cons kv rest ih =>
    rw [alookup] at h
    by_cases hk : kv.1 = k
    · rw [if_pos hk] at h
      exact absurd h (by simp)
    · rw [if_neg hk] at h
      rw [List.cons_append, alookup, if_neg hk]
      exact ih h

theorem alookup_updMap_self {κ β : Type} [DecidableEq κ] (d : List (κ × β))
    (k : κ) (v w : β) (h : alookup k d = some w) :
    alookup k (d.map (fun kv => if kv.1 = k then (k, v) else kv)) = some v := by
  induction d with
  | nil => exact absurd h (by simp [alookup])
  | cons kv rest ih =>
    rw [alookup] at h
    rw [List.map_cons]
    by_cases hk : kv.1 = k
    · rw [if_pos hk, alookup, if_pos rfl]
    · rw [if_neg hk] at h
      rw [if_neg hk, alookup, if_neg hk]
      exact ih h

theorem alookup_updMap_ne {κ β : Type} [DecidableEq κ] (d : List (κ × β))
    (k k2 : κ) (v : β) (hne : k2 ≠ k) :
    alookup k2 (d.map (fun kv => if kv.1 = k then (k, v) else kv)) = alookup k2 d := by
  induction d with
  | nil => rfl
  | cons kv rest ih =>
    rw [List.map_cons, alookup]
    by_cases hk : kv.1 = k
    · rw [if_pos hk]
      have h1 : ¬ ((k, v).1 = k2) := fun he => hne (he.symm)
      have h2 : ¬ (kv.1 = k2) := by
        rw [hk]
        exact fun he => hne he.symm
      rw [if_neg h1, alookup, if_neg h2]
      exact ih
    · rw [if_neg hk, alookup]
      by_cases hk2 : kv.1 = k2
      · rw [if_pos hk2, if_pos hk2]
      · rw [if_neg hk2, if_neg hk2]
        exact ih

theorem alookup_insertItem_self {κ β : Type} [DecidableEq κ] (d : List (κ × β))
    (k : κ) (v : β) : alookup k (insertItem d k v) = some v := by
  unfold insertItem
  cases hd : alookup k d with
  | none =>
    have hc : ¬ ((none : Option β).isSome = true) := by simp
    rw [if_neg hc]
    rw [alookup_append_right k d _ hd]
    rw [alookup, if_pos rfl]
  | some w =>
    have hc : (some w).isSome = true := rfl
    rw [if_pos hc]
    exact alookup_updMap_self d k v w hd

theorem alookup_insertItem_ne {κ β : Type} [DecidableEq κ] (d : List (κ × β))
    (k k2 : κ) (v : β) (hne : k2 ≠ k) :
    alookup k2 (insertItem d k v) = alookup k2 d := by
  unfold insertItem
  cases hd : alookup k d with
  | none =>
    have hc : ¬ ((none : Option β).isSome = true) := by simp
    rw [if_neg hc]
    cases hd2 : alookup k2 d with
    | some v2 => exact alookup_append_left k2 d _ v2 hd2
    | none =>
      rw [alookup_append_right k2 d _ hd2]
      have hkk : ¬ ((k, v).1 = k2) := fun he => hne he.symm
      rw [alookup, if_neg hkk, alookup]
  | some w =>
    have hc : (some w).isSome = true := rfl
    rw [if_pos hc]
    exact alookup_updMap_ne d k k2 v hne

theorem dictOfItems_aux {κ β : Type} [DecidableEq κ] :
    ∀ (l acc : List (κ × β)), (∀ k ∈ dkeys l, alookup k acc = none) →
    (dkeys l).Nodup →
    l.foldl (fun d kv => insertItem d kv.1 kv.2) acc = acc ++ l := by
  intro l
  induction l with
  | nil =>
    intro acc _ _
    simp
  | cons kv rest ih =>
    intro acc hfresh hnd
    have h1 : alookup kv.1 acc = none := by
      apply hfresh
      rw [dkeys_cons]
      exact List.mem_cons_self _ _
    have hstep : insertItem acc kv.1 kv.2 = acc ++ [kv] := by
      unfold insertItem
      have hc : ¬ ((alookup kv.1 acc).isSome = true) := by
        rw [h1]
        simp
      rw [if_neg hc]
    rw [dkeys_cons, List.nodup_cons] at hnd
    have hfresh2 : ∀ k ∈ dkeys rest, alookup k (acc ++ [kv]) = none := by
      intro k hk
      have hka : alookup k acc = none := by
        apply hfresh
        rw [dkeys_cons]
        exact List.mem_cons_of_mem _ hk
      rw [alookup_append_right k acc _ hka, alookup]
      have hne2 : ¬ (kv.1 = k) := fun he => hnd.1 (he ▸ hk)
      rw [if_neg hne2]
      rfl
    rw [List.foldl_cons, hstep, ih (acc ++ [kv]) hfresh2 hnd.2, List.append_assoc]
    rfl

theorem dictOfItems_eq_self {κ β : Type} [DecidableEq κ] (l : List (κ × β))
    (hnd : (dkeys l).Nodup) : dictOfItems l = l := by
  unfold dictOfItems
  rw [dictOfItems_aux l [] (fun k _ => rfl) hnd]
  rfl

/-! Characterization of the shared parameter-merge loop. -/

/-- Well-formedness of the component-dict producer along a list: every element
yields a dict (no lookup/attribute failure) with distinct keys (Python dicts always
have distinct keys). -/
def fOK {α V : Type} (f : α → Except PyErr (PyDict V)) (xs : List α) : Prop :=
  ∀ x ∈ xs, ∃ d, f x = .ok d ∧ (dkeys d).Nodup

theorem merge_step_facts {V : Type} (d acc : PyDict V)
    (hfil : (dkeys acc).filter (fun k => (alookup k d).isSome) = [])
    (hndd : (dkeys d).Nodup) (hnd : (dkeys acc).Nodup) :
    dictOfItems (d ++ acc) = d ++ acc ∧ (dkeys (d ++ acc)).Nodup := by
  have hdisj : ∀ k ∈ dkeys acc, ¬ ((alookup k d).isSome = true) := by
    intro k hk
    have := List.filter_eq_nil_iff.mp hfil k hk
    simpa using this
  have hdisj2 : List.Disjoint (dkeys d) (dkeys acc) := by
    intro a had haa
    exact hdisj a haa ((alookup_isSome_iff a d).mpr had)
  have hndApp : (dkeys (d ++ acc)).Nodup := by
    rw [dkeys_append]
    exact List.Nodup.append hndd hnd hdisj2
  exact ⟨dictOfItems_eq_self _ hndApp, hndApp⟩

theorem merge_preserve {α V : Type} (f : α → Except PyErr (PyDict V)) :
    ∀ (xs : List α) (acc P : PyDict V), fOK f xs → (dkeys acc).Nodup →
    mergeParamLoop f xs acc = .ok P →
    ∀ k v, alookup k acc = some v → alookup k P = some v := by
  intro xs
  induction xs with
  | nil =>
    intro acc P _ _ h k v hkv
    simp only [mergeParamLoop] at h
    cases h
    exact hkv
  | cons x xs ih =>
    intro acc P hf hnd h k v hkv
    obtain ⟨d, hfx, hndd⟩ := hf x (List.mem_cons_self _ _)
    cases hfil : (dkeys acc).filter (fun k => (alookup k d).isSome) with
    | nil =>
      simp only [mergeParamLoop, hfx, hfil] at h
      obtain ⟨heq, hndApp⟩ := merge_step_facts d acc hfil hndd hnd
      rw [heq] at h
      have hkd : alookup k d = none := by
        rw [alookup_eq_none_iff]
        intro hmem
        have hks : k ∈ dkeys acc := (alookup_isSome_iff k acc).mp (by rw [hkv]; rfl)
        have := List.filter_eq_nil_iff.mp hfil k hks
        exact this (by simpa using (alookup_isSome_iff k d).mpr hmem)
      have hacc2 : alookup k (d ++ acc) = some v := by
        rw [alookup_append_right k d acc hkd]
        exact hkv
      exact ih (d ++ acc) P (fun y hy => hf y (List.mem_cons_of_mem _ hy))
        (by rw [dkeys_append] at hndApp ⊢; exact hndApp) h k v hacc2
    | cons kc rest =>
      simp only [mergeParamLoop, hfx, hfil] at h
      exact Except.noConfusion h

theorem merge_binds {α V : Type} (f : α → Except PyErr (PyDict V)) :
    ∀ (xs : List α) (acc P : PyDict V), fOK f xs → (dkeys acc).Nodup →
    mergeParamLoop f xs acc = .ok P →
    ∀ x ∈ xs, ∀ d, f x = .ok d → ∀ k v, alookup k d = some v →
    alookup k P = some v := by
  intro xs
  induction xs with
  | nil =>
    intro acc P _ _ _ x hx
    exact absurd hx (List.not_mem_nil x)
  | cons y xs ih =>
    intro acc P hf hnd h x hx d hfx k v hkv
    obtain ⟨d0, hfy, hnd0⟩ := hf y (List.mem_cons_self _ _)
    cases hfil : (dkeys acc).filter (fun k => (alookup k d0).isSome) with
    | nil =>
      simp only [mergeParamLoop, hfy, hfil] at h
      obtain ⟨heq, hndApp⟩ := merge_step_facts d0 acc hfil hnd0 hnd
      rw [heq] at h
      have hndApp2 : (dkeys (d0 ++ acc)).Nodup := hndApp
      cases hx with
      | head =>
        have hd0d : d0 = d := by
          rw [hfy] at hfx
          injection hfx
        rw [← hd0d] at hkv
        have hacc2 : alookup k (d0 ++ acc) = some v :=
          alookup_append_left k d0 acc v hkv
        exact merge_preserve f xs (d0 ++ acc) P
          (fun z hz => hf z (List.mem_cons_of_mem _ hz)) hndApp2 h k v hacc2
      | tail _ hx2 =>
        exact ih (d0 ++ acc) P (fun z hz => hf z (List.mem_cons_of_mem _ hz))
          hndApp2 h x hx2 d hfx k v hkv
    | cons kc rest =>
      simp only [mergeParamLoop, hfy, hfil] at h
      exact Except.noConfusion h

theorem merge_keys {α V : Type} (f : α → Except PyErr (PyDict V)) :
    ∀ (xs : List α) (acc P : PyDict V), fOK f xs → (dkeys acc).Nodup →
    mergeParamLoop f xs acc = .ok P →
    ∀ k, (alookup k P).isSome = true →
    (alookup k acc).isSome = true ∨
      ∃ x ∈ xs, ∃ d, f x = .ok d ∧ (alookup k d).isSome = true := by
  intro xs
  induction xs with
  | nil =>
    intro acc P _ _ h k hk
    simp only [mergeParamLoop] at h
    cases h
    exact Or.inl hk
  | cons x xs ih =>
    intro acc P hf hnd h k hk
    obtain ⟨d, hfx, hndd⟩ := hf x (List.mem_cons_self _ _)
    cases hfil : (dkeys acc).filter (fun k => (alookup k d).isSome) with
    | nil =>
      simp only [mergeParamLoop, hfx, hfil] at h
      obtain ⟨heq, hndApp⟩ := merge_step_facts d acc hfil hndd hnd
      rw [heq] at h
      have hrec := ih (d ++ acc) P (fun z hz => hf z (List.mem_cons_of_mem _ hz))
        hndApp h k hk
      cases hrec with
      | inl hacc2 =>
        cases hkd : alookup k d with
        | some w =>
          exact Or.inr ⟨x, List.mem_cons_self _ _, d, hfx, by rw [hkd]; rfl⟩
        | none =>
          rw [alookup_append_right k d acc hkd] at hacc2
          exact Or.inl hacc2
      | inr hex =>
        obtain ⟨z, hz, d2, hfz, hkd2⟩ := hex
        exact Or.inr ⟨z, List.mem_cons_of_mem _ hz, d2, hfz, hkd2⟩
    | cons kc rest =>
      simp only [mergeParamLoop, hfx, hfil] at h
      exact Except.noConfusion h

theorem keyCount_cons_ok {α V : Type} (f : α → Except PyErr (PyDict V)) (x : α)
    (xs : List α) (k : String) (d : PyDict V) (hfx : f x = .ok d) :
    keyCount f (x :: xs) k =
      keyCount f xs k + (if (alookup k d).isSome = true then 1 else 0) := by
  unfold keyCount
  rw [List.countP_cons, hfx]

theorem merge_ok_count {α V : Type} (f : α → Except PyErr (PyDict V)) :
    ∀ (xs : List α) (acc P : PyDict V), fOK f xs → (dkeys acc).Nodup →
    mergeParamLoop f xs acc = .ok P →
    ∀ k, keyCount f xs k + (if (alookup k acc).isSome = true then 1 else 0) ≤ 1 := by
  intro xs
  induction xs with
  | nil =>
    intro acc P _ _ _ k
    simp only [keyCount, List.countP_nil]
    split <;> omega
  | cons x xs ih =>
    intro acc P hf hnd h k
    obtain ⟨d, hfx, hndd⟩ := hf x (List.mem_cons_self _ _)
    cases hfil : (dkeys acc).filter (fun k => (alookup k d).isSome) with
    | nil =>
      simp only [mergeParamLoop, hfx, hfil] at h
      obtain ⟨heq, hndApp⟩ := merge_step_facts d acc hfil hndd hnd
      rw [heq] at h
      have hrec := ih (d ++ acc) P (fun z hz => hf z (List.mem_cons_of_mem _ hz))
        hndApp h k
      rw [keyCount_cons_ok f x xs k d hfx]
      cases hkd : alookup k d with
      | some w =>
        have hpred : ((alookup k d).isSome = true) := by rw [hkd]; rfl
        have hknacc : alookup k acc = none := by
          rw [alookup_eq_none_iff]
          intro hmem
          have := List.filter_eq_nil_iff.mp hfil k hmem
          exact this (by simpa using hpred)
        have hina : alookup k (d ++ acc) = some w := alookup_append_left k d acc w hkd
        rw [hina] at hrec
        rw [hknacc]
        simp at hrec ⊢
        omega
      | none =>
        have hsame : alookup k (d ++ acc) = alookup k acc :=
          alookup_append_right k d acc hkd
        rw [hsame] at hrec
        simp only [Option.isSome_none, Bool.false_eq_true, if_false]
        omega
    | cons kc rest =>
      simp only [mergeParamLoop, hfx, hfil] at h
      exact Except.noConfusion h

theorem merge_err {α V : Type} (f : α → Except PyErr (PyDict V)) :
    ∀ (xs : List α) (acc : PyDict V) (e : PyErr), fOK f xs → (dkeys acc).Nodup →
    mergeParamLoop f xs acc = .error e →
    ∃ k, e = .keyError k ∧
      2 ≤ keyCount f xs k + (if (alookup k acc).isSome = true then 1 else 0) := by
  intro xs
  induction xs with
  | nil =>
    intro acc e _ _ h
    exact Except.noConfusion h
  | cons x xs ih =>
    intro acc e hf hnd h
    obtain ⟨d, hfx, hndd⟩ := hf x (List.mem_cons_self _ _)
    cases hfil : (dkeys acc).filter (fun k => (alookup k d).isSome) with
    | nil =>
      simp only [mergeParamLoop, hfx, hfil] at h
      obtain ⟨heq, hndApp⟩ := merge_step_facts d acc hfil hndd hnd
      rw [heq] at h
      obtain ⟨k, hek, hcnt⟩ := ih (d ++ acc) e
        (fun z hz => hf z (List.mem_cons_of_mem _ hz)) hndApp h
      refine ⟨k, hek, ?_⟩
      rw [keyCount_cons_ok f x xs k d hfx]
      cases hkd : alookup k d with
      | some w =>
        have hpred : ((alookup k d).isSome = true) := by rw [hkd]; rfl
        have hknacc : alookup k acc = none := by
          rw [alookup_eq_none_iff]
          intro hmem
          have := List.filter_eq_nil_iff.mp hfil k hmem
          exact this (by simpa using hpred)
        have hina : alookup k (d ++ acc) = some w := alookup_append_left k d acc w hkd
        rw [hina] at hcnt
        rw [hknacc]
        simp at hcnt ⊢
        omega
      | none =>
        have hsame : alookup k (d ++ acc) = alookup k acc :=
          alookup_append_right k d acc hkd
        rw [hsame] at hcnt
        simp only [Option.isSome_none, Bool.false_eq_true, if_false]
        omega
    | cons kc rest =>
      simp only [mergeParamLoop, hfx, hfil] at h
      have hek : e = .keyError kc := by
        injection h with h2
        exact h2.symm
      refine ⟨kc, hek, ?_⟩
      have hkcmem : kc ∈ (dkeys acc).filter (fun k => (alookup k d).isSome) := by
        rw [hfil]
        exact List.mem_cons_self _ _
      rw [List.mem_filter] at hkcmem
      have hkcd : (alookup kc d).isSome = true := by simpa using hkcmem.2
      have hkcacc : (alookup kc acc).isSome = true :=
        (alookup_isSome_iff kc acc).mpr hkcmem.1
      rw [keyCount_cons_ok f x xs kc d hfx]
      rw [if_pos hkcd, if_pos hkcacc]
      omega

theorem merge_ok_exists {α V : Type} (f : α → Except PyErr (PyDict V)) :
    ∀ (xs : List α) (acc : PyDict V), fOK f xs → (dkeys acc).Nodup →
    (∀ k, (alookup k acc).isSome = true → keyCount f xs k = 0) →
    (∀ k, keyCount f xs k ≤ 1) →
    ∃ P, mergeParamLoop f xs acc = .ok P := by
  intro xs
  induction xs with
  | nil =>
    intro acc _ _ _ _
    exact ⟨acc, rfl⟩
  | cons x xs ih =>
    intro acc hf hnd hc0 hc1
    obtain ⟨d, hfx, hndd⟩ := hf x (List.mem_cons_self _ _)
    have hfil : (dkeys acc).filter (fun k => (alookup k d).isSome) = [] := by
      rw [List.filter_eq_nil_iff]
      intro k hk
      have hacc : (alookup k acc).isSome = true := (alookup_isSome_iff k acc).mpr hk
      have h0 := hc0 k hacc
      rw [keyCount_cons_ok f x xs k d hfx] at h0
      intro hkd
      have hkd2 : (alookup k d).isSome = true := by simpa using hkd
      rw [if_pos hkd2] at h0
      omega
    obtain ⟨heq, hndApp⟩ := merge_step_facts d acc hfil hndd hnd
    have hc0b : ∀ k, (alookup k (d ++ acc)).isSome = true → keyCount f xs k = 0 := by
      intro k hk
      cases hkd : alookup k d with
      | some w =>
        have h1 := hc1 k
        rw [keyCount_cons_ok f x xs k d hfx] at h1
        have hkd2 : (alookup k d).isSome = true := by rw [hkd]; rfl
        rw [if_pos hkd2] at h1
        omega
      | none =>
        rw [alookup_append_right k d acc hkd] at hk
        have h0 := hc0 k hk
        rw [keyCount_cons_ok f x xs k d hfx] at h0
        omega
    have hc1b : ∀ k, keyCount f xs k ≤ 1 := by
      intro k
      have h1 := hc1 k
      rw [keyCount_cons_ok f x xs k d hfx] at h1
      omega
    obtain ⟨P, hP⟩ := ih (d ++ acc) (fun z hz => hf z (List.mem_cons_of_mem _ hz))
      hndApp hc0b hc1b
    refine ⟨P, ?_⟩
    simp only [mergeParamLoop, hfx, hfil]
    rw [heq]
    exact hP

theorem merge_append {α V : Type} (f : α → Except PyErr (PyDict V)) :
    ∀ (l1 l2 : List α) (acc : PyDict V),
    mergeParamLoop f (l1 ++ l2) acc =
      match mergeParamLoop f l1 acc with
      | .ok a2 => mergeParamLoop f l2 a2
      | .error e => .error e := by
  intro l1
  induction l1 with
  | nil =>
    intro l2 acc
    rfl
  | cons x l1 ih =>
    intro l2 acc
    cases hfx : f x with
    | error e =>
      simp only [List.cons_append, mergeParamLoop, hfx]
    | ok d =>
      cases hfil : (dkeys acc).filter (fun k => (alookup k d).isSome) with
      | nil =>
        simp only [List.cons_append, mergeParamLoop, hfx, hfil]
        exact ih l2 (dictOfItems (d ++ acc))
      | cons kc rest =>
        simp only [List.cons_append, mergeParamLoop, hfx, hfil]

theorem hodSetInitOuter_eq {V : Type} (bp : HodBlueprint V) :
    ∀ (ts : List String) (acc : PyDict V),
    (∀ t ∈ ts, (alookup t bp).isSome = true) →
    hodSetInitOuter bp ts acc = mergeParamLoop fHod (hodFlatten bp ts) acc := by
  intro ts
  induction ts with
  | nil =>
    intro acc _
    rfl
  | cons t ts ih =>
    intro acc hlk
    have hsome := hlk t (List.mem_cons_self _ _)
    cases hfd : alookup t bp with
    | none => rw [hfd] at hsome; exact absurd hsome (by simp)
    | some fd =>
      have hflat : hodFlatten bp (t :: ts) = fd.map Prod.snd ++ hodFlatten bp ts := by
        simp only [hodFlatten, hfd, Option.getD_some]
      rw [hflat, merge_append fHod (fd.map Prod.snd) (hodFlatten bp ts) acc]
      simp only [hodSetInitOuter, hfd]
      cases hmm : mergeParamLoop fHod (fd.map Prod.snd) acc with
      | ok acc2 => exact ih acc2 (fun z hz => hlk z (List.mem_cons_of_mem _ hz))
      | error e => rfl

/-- The key set a component contributes to the parameter merge (empty on failure). -/
def fKeys {α V : Type} (f : α → Except PyErr (PyDict V)) (x : α) : List String :=
  match f x with
  | .ok d => dkeys d
  | .error _ => []

theorem keyCount_pred_iff {α V : Type} (f : α → Except PyErr (PyDict V)) (x : α)
    (k : String) :
    ((match f x with
      | .ok d => (alookup k d).isSome
      | .error _ => false) = true) ↔ k ∈ fKeys f x := by
  unfold fKeys
  cases f x with
  | ok d => exact alookup_isSome_iff k d
  | error e => simp

theorem keyCount_le_one {α V : Type} (f : α → Except PyErr (PyDict V))
    (xs : List α)
    (h : xs.Pairwise (fun a b => ∀ k, k ∈ fKeys f a → k ∉ fKeys f b)) :
    ∀ k, keyCount f xs k ≤ 1 := by
  induction xs with
  | nil =>
    intro k
    simp [keyCount]
  | cons x xs ih =>
    rw [List.pairwise_cons] at h
    intro k
    unfold keyCount
    rw [List.countP_cons]
    by_cases hp : (match f x with
        | .ok d => (alookup k d).isSome
        | .error _ => false) = true
    · have hk : k ∈ fKeys f x := (keyCount_pred_iff f x k).mp hp
      have hz : xs.countP (fun y =>
          match f y with
          | .ok d => (alookup k d).isSome
          | .error _ => false) = 0 := by
        rw [List.countP_eq_zero]
        intro y hy hpy
        exact (h.1 y hy k hk) ((keyCount_pred_iff f y k).mp hpy)
      rw [hz, hp, if_pos rfl]
    · rw [if_neg hp]
      have := ih h.2 k
      unfold keyCount at this
      omega

/-- C1 counterexample: in the typed variant, a component model with self-reported
identity `"occ"` and private key `'a'` contributes the verbatim key `'a'` to the
composite `param_dict`; the namespaced key `'occ_a'` the claim requires is absent,
so the claimed namespacing does not hold for the typed variant. -/
theorem c1_counterexample :
    (constructHod exBpC1 []).map (fun M => M.param_dict) = .ok [("a", (1 : ℤ))] ∧
    (constructHod exBpC1 []).map
      (fun M => alookup (nsKey exOccC1.identity "a") M.param_dict) = .ok none := by
  constructor
  · rfl
  · rfl

/-- C1 (corrected): in the flat variant the composite `param_dict` built at
construction is exactly the union, over every component model reachable from the
blueprint, of that model's namespaced private parameter dictionary (key `k`
rewritten as `<galprop_key>_<k>` with the model's self-reported identity), a model
without a private parameter dictionary contributing no keys, and construction
succeeds whenever the namespaced keys are pairwise disjoint; in the typed variant
construction also succeeds under disjointness but merges every component's private
keys verbatim, with no namespacing; and when a typed component model lacks a
private `param_dict` (with the components merged before it collision-free), the
typed merge raises `AttributeError('param_dict')` instead of letting the component
contribute no keys. -/
theorem c1_amended {V : Type} (bp : SubhaloBlueprint V) (gl : List String)
    (bpT : HodBlueprint V) (ts : List String)
    (bpU : HodBlueprint V) (us : List String)
    (l1 l2 : List (HodComponent V)) (c : HodComponent V)
    (hfS : fOK (fSub bp) gl)
    (hcS : ∀ k, keyCount (fSub bp) gl k ≤ 1)
    (hlk : ∀ t ∈ ts, (alookup t bpT).isSome = true)
    (hfT : fOK fHod (hodFlatten bpT ts))
    (hcT : ∀ k, keyCount fHod (hodFlatten bpT ts) k ≤ 1)
    (hlkU : ∀ t ∈ us, (alookup t bpU).isSome = true)
    (hsplitU : hodFlatten bpU us = l1 ++ c :: l2)
    (hcnone : c.param_dict = none)
    (hfU : fOK fHod l1)
    (hcU : ∀ k, keyCount fHod l1 k ≤ 1) :
    (∃ P, subhaloSetInitParamDict bp gl = .ok P ∧
      (∀ g ∈ gl, ∀ m, alookup g bp = some m →
        ∀ k v, alookup k (nsDict m) = some v → alookup k P = some v) ∧
      (∀ k, (alookup k P).isSome = true →
        ∃ g, g ∈ gl ∧ ∃ m, alookup g bp = some m ∧
          (alookup k (nsDict m)).isSome = true)) ∧
    (∃ Q, hodSetInitParamDict bpT ts = .ok Q ∧
      (∀ c ∈ hodFlatten bpT ts, ∀ d, c.param_dict = some d →
        ∀ k v, alookup k d = some v → alookup k Q = some v) ∧
      (∀ k, (alookup k Q).isSome = true →
        ∃ c, c ∈ hodFlatten bpT ts ∧ ∃ d, c.param_dict = some d ∧
          (alookup k d).isSome = true)) ∧
    hodSetInitParamDict bpU us = .error (.attributeError "param_dict") := by
  have hndnil : (dkeys ([] : PyDict V)).Nodup := List.nodup_nil
  have hc0 : ∀ k, (alookup k ([] : PyDict V)).isSome = true → keyCount (fSub bp) gl k = 0 := by
    intro k hk
    exact absurd hk (by simp [alookup])
  refine ⟨?_, ?_, ?_⟩
  · obtain ⟨P, hP⟩ := merge_ok_exists (fSub bp) gl [] hfS hndnil hc0 hcS
    refine ⟨P, hP, ?_, ?_⟩
    · intro g hg m hm k v hkv
      have hfsub : fSub bp g = .ok (nsDict m) := by
        unfold fSub
        rw [hm]
      exact merge_binds (fSub bp) gl [] P hfS hndnil hP g hg (nsDict m) hfsub k v hkv
    · intro k hk
      have := merge_keys (fSub bp) gl [] P hfS hndnil hP k hk
      cases this with
      | inl habs => exact absurd habs (by simp [alookup])
      | inr hex =>
        obtain ⟨g, hg, d, hfd, hkd⟩ := hex
        cases hm : alookup g bp with
        | none => unfold fSub at hfd; rw [hm] at hfd; exact Except.noConfusion hfd
        | some m =>
          have hd : d = nsDict m := by
            unfold fSub at hfd
            rw [hm] at hfd
            injection hfd with h2
            exact h2.symm
          exact ⟨g, hg, m, hm, hd ▸ hkd⟩
  · have hc0T : ∀ k, (alookup k ([] : PyDict V)).isSome = true →
        keyCount fHod (hodFlatten bpT ts) k = 0 := by
      intro k hk
      exact absurd hk (by simp [alookup])
    obtain ⟨Q, hQ⟩ := merge_ok_exists fHod (hodFlatten bpT ts) [] hfT hndnil hc0T hcT
    have hQ2 : hodSetInitParamDict bpT ts = .ok Q := by
      unfold hodSetInitParamDict
      rw [hodSetInitOuter_eq bpT ts [] hlk]
      exact hQ
    refine ⟨Q, hQ2, ?_, ?_⟩
    · intro c hc d hd k v hkv
      have hfc : fHod c = .ok d := by
        unfold fHod
        rw [hd]
      exact merge_binds fHod (hodFlatten bpT ts) [] Q hfT hndnil hQ c hc d hfc k v hkv
    · intro k hk
      have := merge_keys fHod (hodFlatten bpT ts) [] Q hfT hndnil hQ k hk
      cases this with
      | inl habs => exact absurd habs (by simp [alookup])
      | inr hex =>
        obtain ⟨c, hc, d, hfd, hkd⟩ := hex
        cases hpd : c.param_dict with
        | none => unfold fHod at hfd; rw [hpd] at hfd; exact Except.noConfusion hfd
        | some d2 =>
          have hd : d = d2 := by
            unfold fHod at hfd
            rw [hpd] at hfd
            injection hfd with h2
            exact h2.symm
          exact ⟨c, hc, d2, hpd, hd ▸ hkd⟩
  · have hc0U : ∀ k, (alookup k ([] : PyDict V)).isSome = true →
        keyCount fHod l1 k = 0 := by
      intro k hk
      exact absurd hk (by simp [alookup])
    obtain ⟨R, hR⟩ := merge_ok_exists fHod l1 [] hfU hndnil hc0U hcU
    have hfc : fHod c = .error (.attributeError "param_dict") := by
      unfold fHod
      rw [hcnone]
    unfold hodSetInitParamDict
    rw [hodSetInitOuter_eq bpU us [] hlkU, hsplitU,
      merge_append fHod l1 (c :: l2) [], hR]
    simp only [mergeParamLoop, hfc]

theorem keyCount_nil {α V : Type} (f : α → Except PyErr (PyDict V)) (k : String) :
    keyCount f ([] : List α) k = 0 := rfl

/-- C1 witness: the amended characterization applied to a concrete flat blueprint
(one model without a private dict, one with `{'p': 1}`), the concrete typed
blueprint of the counterexample, and a concrete typed blueprint whose single
feature component lacks a `param_dict`, on which the typed merge raises
`AttributeError('param_dict')`. -/
theorem c1_amended_witness :
    (∃ P, subhaloSetInitParamDict exBpC6 ["a", "b"] = .ok P ∧
      (∀ g ∈ ["a", "b"], ∀ m, alookup g exBpC6 = some m →
        ∀ k v, alookup k (nsDict m) = some v → alookup k P = some v) ∧
      (∀ k, (alookup k P).isSome = true →
        ∃ g, g ∈ ["a", "b"] ∧ ∃ m, alookup g exBpC6 = some m ∧
          (alookup k (nsDict m)).isSome = true)) ∧
    (∃ Q, hodSetInitParamDict exBpC1 ["centrals"] = .ok Q ∧
      (∀ c ∈ hodFlatten exBpC1 ["centrals"], ∀ d, c.param_dict = some d →
        ∀ k v, alookup k d = some v → alookup k Q = some v) ∧
      (∀ k, (alookup k Q).isSome = true →
        ∃ c, c ∈ hodFlatten exBpC1 ["centrals"] ∧ ∃ d, c.param_dict = some d ∧
          (alookup k d).isSome = true)) ∧
    hodSetInitParamDict exBpC1m ["centrals"] = .error (.attributeError "param_dict") := by
  apply c1_amended exBpC6 ["a", "b"] exBpC1 ["centrals"] exBpC1m ["centrals"]
    [] [] exCompC1m
  · intro x hx
    rw [List.mem_cons, List.mem_cons] at hx
    rcases hx with h | h | h
    · subst h
      exact ⟨[], rfl, List.nodup_nil⟩
    · subst h
      exact ⟨[("b_p", 1)], rfl, by decide⟩
    · exact absurd h (List.not_mem_nil x)
  · intro k
    rw [keyCount_cons_ok (fSub exBpC6) "a" ["b"] k [] rfl]
    rw [keyCount_cons_ok (fSub exBpC6) "b" [] k [("b_p", (1 : ℤ))] rfl]
    rw [keyCount_nil]
    have h0 : ¬ ((alookup k ([] : PyDict ℤ)).isSome = true) := by simp [alookup]
    rw [if_neg h0]
    split <;> omega
  · intro t ht
    rw [List.mem_cons] at ht
    rcases ht with h | h
    · subst h
      rfl
    · exact absurd h (List.not_mem_nil t)
  · intro c hc
    have he : hodFlatten exBpC1 ["centrals"] = [exOccC1, exProfC1] := rfl
    rw [he, List.mem_cons, List.mem_cons] at hc
    rcases hc with h | h | h
    · subst h
      exact ⟨[("a", 1)], rfl, by decide⟩
    · subst h
      exact ⟨[], rfl, List.nodup_nil⟩
    · exact absurd h (List.not_mem_nil c)
  · intro k
    have he : hodFlatten exBpC1 ["centrals"] = [exOccC1, exProfC1] := rfl
    rw [he]
    rw [keyCount_cons_ok fHod exOccC1 [exProfC1] k [("a", (1 : ℤ))] rfl]
    rw [keyCount_cons_ok fHod exProfC1 [] k [] rfl]
    rw [keyCount_nil]
    have h0 : ¬ ((alookup k ([] : PyDict ℤ)).isSome = true) := by simp [alookup]
    rw [if_neg h0]
    split <;> omega
  · intro t ht
    rw [List.mem_cons] at ht
    rcases ht with h | h
    · subst h
      rfl
    · exact absurd h (List.not_mem_nil t)
  · rfl
  · rfl
  · intro x hx
    exact absurd hx (List.not_mem_nil x)
  · intro k
    rw [keyCount_nil]
    omega

/-- C2: evidence for the aliasing defect of `restore_init_param_dict`.  At
construction the composite `param_dict` of the one-model blueprint is
`{'m_a': 1}` and the first mutate-then-restore round still reads back 1; but
because line 307 rebinds `param_dict` to the snapshot object itself instead of a
copy, the second mutation corrupts the snapshot, and after the second call to
`restore_init_param_dict` the key reads 3, not its construction-time value 1. -/
theorem c2_restore_aliasing :
    subhaloSetInitParamDict exBpC2 ["m"] = .ok [(nsKey "m" "a", (1 : ℤ))] ∧
    c2FirstRestoreRead = .ok (some 1) ∧
    c2FinalRead = .ok (some 3) :=
  ⟨rfl, rfl, rfl⟩

theorem heap_read_write_ne {V : Type} (h : DictHeap V) (r r2 : Nat) (d : PyDict V)
    (hne : r2 ≠ r) : (h.write r d).read r2 = h.read r2 := by
  unfold DictHeap.write DictHeap.read
  rw [alookup_insertItem_ne h.cells r r2 d hne]

/-- C10: every call of the flat variant's parameter stripping allocates a fresh
dict object, distinct from both `param_dict` and `_init_param_dict`, and no
mutation of the returned object changes what either of those two objects
contains. -/
theorem c10_stripped_fresh {V : Type} (h : DictHeap V) (s : SubhaloRT V)
    (g : String) (r : Nat) (h2 : DictHeap V)
    (hp : s.param_ref < h.next) (hi : s.init_ref < h.next)
    (hstrip : getStrippedParamDictRT h s g = .ok (r, h2)) :
    r ≠ s.param_ref ∧ r ≠ s.init_ref ∧
    h2.read s.param_ref = h.read s.param_ref ∧
    h2.read s.init_ref = h.read s.init_ref ∧
    ∀ k v, (h2.setItem r k v).read s.param_ref = h.read s.param_ref ∧
      (h2.setItem r k v).read s.init_ref = h.read s.init_ref := by
  unfold getStrippedParamDictRT at hstrip
  cases hd : getStrippedParamDict s.blueprint (h.read s.param_ref) g with
  | error e =>
    rw [hd] at hstrip
    exact Except.noConfusion hstrip
  | ok d =>
    rw [hd] at hstrip
    have hr : r = h.next ∧ h2 = ⟨h.next + 1, insertItem h.cells h.next d⟩ := by
      unfold DictHeap.alloc at hstrip
      injection hstrip with h3
      injection h3 with h4 h5
      exact ⟨h4.symm, h5.symm⟩
    obtain ⟨hr1, hr2⟩ := hr
    have hnp : r ≠ s.param_ref := by omega
    have hni : r ≠ s.init_ref := by omega
    have hreadp : h2.read s.param_ref = h.read s.param_ref := by
      rw [hr2]
      unfold DictHeap.read
      rw [alookup_insertItem_ne h.cells h.next s.param_ref d (by omega)]
    have hreadi : h2.read s.init_ref = h.read s.init_ref := by
      rw [hr2]
      unfold DictHeap.read
      rw [alookup_insertItem_ne h.cells h.next s.init_ref d (by omega)]
    refine ⟨hnp, hni, hreadp, hreadi, ?_⟩
    intro k v
    unfold DictHeap.setItem
    constructor
    · rw [heap_read_write_ne h2 r s.param_ref _ (fun he => hnp he.symm)]
      exact hreadp
    · rw [heap_read_write_ne h2 r s.init_ref _ (fun he => hni he.symm)]
      exact hreadi

/-- C10 witness: the freshness theorem applied to the constructed one-model
blueprint heap, with the returned stripped dict (object 2) mutated at key
`'a'`. -/
theorem c10_stripped_fresh_witness :
    (2 : Nat) ≠ sC10.param_ref ∧ (2 : Nat) ≠ sC10.init_ref ∧
    h2C10.read sC10.param_ref = hC10.read sC10.param_ref ∧
    h2C10.read sC10.init_ref = hC10.read sC10.init_ref ∧
    ((h2C10.setItem 2 "a" (5 : ℤ)).read sC10.param_ref = hC10.read sC10.param_ref ∧
      (h2C10.setItem 2 "a" (5 : ℤ)).read sC10.init_ref = hC10.read sC10.init_ref) := by
  have T := c10_stripped_fresh hC10 sC10 "m" 2 h2C10 (by decide) (by decide) rfl
  exact ⟨T.1, T.2.1, T.2.2.1, T.2.2.2.1, T.2.2.2.2 "a" 5⟩

/-- C3 counterexample: a valid flat blueprint whose slot key `'sfr'` differs from
the component model's self-reported identity `'stellar_mass'`.  Construction
succeeds and the composite `param_dict` is `{'stellar_mass_a': 1}`, but stripping
slot `'sfr'` raises `KeyError('sfr_a')` because `_get_stripped_param_dict`
namespaces with the slot key while `_set_init_param_dict` namespaced with the
identity; the claimed strip/namespace round trip therefore fails. -/
theorem c3_counterexample :
    subhaloSetInitParamDict exBpC3 ["sfr"] = .ok [(nsKey "stellar_mass" "a", (1 : ℤ))] ∧
    getStrippedParamDict exBpC3 [(nsKey "stellar_mass" "a", (1 : ℤ))] "sfr"
      = .error (.keyError (nsKey "sfr" "a")) :=
  ⟨rfl, rfl⟩

theorem dkeys_namespaceDict {V : Type} (ident : String) (d : PyDict V) :
    dkeys (namespaceDict ident d) = (dkeys d).map (nsKey ident) := by
  simp [dkeys, namespaceDict, List.map_map]

theorem ns_lookup {V : Type} (ident : String) :
    ∀ (d : PyDict V), (dkeys (namespaceDict ident d)).Nodup →
    ∀ k v, alookup k d = some v →
    alookup (nsKey ident k) (namespaceDict ident d) = some v := by
  intro d
  induction d with
  | nil =>
    intro _ k v h
    exact absurd h (by simp [alookup])
  | cons kv rest ih =>
    intro hnd k v h
    have hmap : namespaceDict ident (kv :: rest) =
        (nsKey ident kv.1, kv.2) :: namespaceDict ident rest := rfl
    rw [hmap, dkeys_cons, List.nodup_cons] at hnd
    rw [hmap, alookup]
    rw [alookup] at h
    by_cases hk : kv.1 = k
    · have hcond : (nsKey ident kv.1, kv.2).1 = nsKey ident k := by
        simp only [hk]
      rw [if_pos hcond]
      rw [if_pos hk] at h
      exact h
    · rw [if_neg hk] at h
      have hmem : k ∈ dkeys rest := by
        rw [← alookup_isSome_iff]
        rw [h]
        rfl
      have hcond : ¬ ((nsKey ident kv.1, kv.2).1 = nsKey ident k) := by
        intro he
        apply hnd.1
        rw [dkeys_namespaceDict]
        have : nsKey ident k ∈ (dkeys rest).map (nsKey ident) :=
          List.mem_map_of_mem _ hmem
        rw [← he] at this
        exact this
      rw [if_neg hcond]
      exact ih hnd.2 k v h

theorem strip_fold_eq {V : Type} (P : PyDict V) (slot : String) :
    ∀ (d acc : PyDict V), (dkeys d).Nodup →
    (∀ k ∈ dkeys d, alookup k acc = none) →
    (∀ k v, alookup k d = some v → alookup (nsKey slot k) P = some v) →
    (dkeys d).foldlM
      (fun out k =>
        match alookup (nsKey slot k) P with
        | some v => Except.ok (insertItem out k v)
        | none => Except.error (PyErr.keyError (nsKey slot k)))
      acc = .ok (acc ++ d) := by
  intro d
  induction d with
  | nil =>
    intro acc _ _ _
    rw [List.append_nil]
    rfl
  | cons kv rest ih =>
    intro acc hnd hfresh hlk
    rw [dkeys_cons, List.nodup_cons] at hnd
    have hhead : alookup kv.1 (kv :: rest) = some kv.2 := by
      rw [alookup, if_pos rfl]
    have hP : alookup (nsKey slot kv.1) P = some kv.2 := hlk kv.1 kv.2 hhead
    have hfr : alookup kv.1 acc = none := hfresh kv.1 (by rw [dkeys_cons]; exact List.mem_cons_self _ _)
    have hins : insertItem acc kv.1 kv.2 = acc ++ [kv] := by
      unfold insertItem
      have hc : ¬ ((alookup kv.1 acc).isSome = true) := by rw [hfr]; simp
      rw [if_neg hc]
    have hfresh2 : ∀ k ∈ dkeys rest, alookup k (acc ++ [kv]) = none := by
      intro k hk
      have hka : alookup k acc = none := by
        apply hfresh
        rw [dkeys_cons]
        exact List.mem_cons_of_mem _ hk
      rw [alookup_append_right k acc _ hka, alookup]
      have hne : ¬ (kv.1 = k) := fun he => hnd.1 (he ▸ hk)
      rw [if_neg hne]
      rfl
    have hlk2 : ∀ k v, alookup k rest = some v → alookup (nsKey slot k) P = some v := by
      intro k v hkv
      apply hlk k v
      have hk : k ∈ dkeys rest := by
        rw [← alookup_isSome_iff, hkv]
        rfl
      have hne : ¬ (kv.1 = k) := fun he => hnd.1 (he ▸ hk)
      rw [alookup, if_neg hne]
      exact hkv
    rw [dkeys_cons, List.foldlM_cons, hP]
    have := ih (acc ++ [kv]) hnd.2 hfresh2 hlk2
    simp only [hins]
    rw [show (Except.ok (acc ++ [kv]) >>= fun out =>
        (dkeys rest).foldlM (fun out k =>
          match alookup (nsKey slot k) P with
          | some v => Except.ok (insertItem out k v)
          | none => Except.error (PyErr.keyError (nsKey slot k))) out) =
        (dkeys rest).foldlM (fun out k =>
          match alookup (nsKey slot k) P with
          | some v => Except.ok (insertItem out k v)
          | none => Except.error (PyErr.keyError (nsKey slot k))) (acc ++ [kv])
      from rfl]
    rw [this, List.append_assoc]
    rfl

theorem comp_fold_eq {V : Type} (P : PyDict V) :
    ∀ (d acc : PyDict V), (dkeys d).Nodup →
    (∀ k ∈ dkeys d, alookup k acc = none) →
    (∀ k v, alookup k d = some v → alookup k P = some v) →
    (dkeys d).foldlM
      (fun out k =>
        match alookup k P with
        | some v => Except.ok (insertItem out k v)
        | none => Except.error (PyErr.keyError k))
      acc = .ok (acc ++ d) := by
  intro d
  induction d with
  | nil =>
    intro acc _ _ _
    rw [List.append_nil]
    rfl
  | cons kv rest ih =>
    intro acc hnd hfresh hlk
    rw [dkeys_cons, List.nodup_cons] at hnd
    have hhead : alookup kv.1 (kv :: rest) = some kv.2 := by
      rw [alookup, if_pos rfl]
    have hP : alookup kv.1 P = some kv.2 := hlk kv.1 kv.2 hhead
    have hfr : alookup kv.1 acc = none := hfresh kv.1 (by rw [dkeys_cons]; exact List.mem_cons_self _ _)
    have hins : insertItem acc kv.1 kv.2 = acc ++ [kv] := by
      unfold insertItem
      have hc : ¬ ((alookup kv.1 acc).isSome = true) := by rw [hfr]; simp
      rw [if_neg hc]
    have hfresh2 : ∀ k ∈ dkeys rest, alookup k (acc ++ [kv]) = none := by
      intro k hk
      have hka : alookup k acc = none := by
        apply hfresh
        rw [dkeys_cons]
        exact List.mem_cons_of_mem _ hk
      rw [alookup_append_right k acc _ hka, alookup]
      have hne : ¬ (kv.1 = k) := fun he => hnd.1 (he ▸ hk)
      rw [if_neg hne]
      rfl
    have hlk2 : ∀ k v, alookup k rest = some v → alookup k P = some v := by
      intro k v hkv
      apply hlk k v
      have hk : k ∈ dkeys rest := by
        rw [← alookup_isSome_iff, hkv]
        rfl
      have hne : ¬ (kv.1 = k) := fun he => hnd.1 (he ▸ hk)
      rw [alookup, if_neg hne]
      exact hkv
    rw [dkeys_cons, List.foldlM_cons, hP]
    have hrec := ih (acc ++ [kv]) hnd.2 hfresh2 hlk2
    simp only [hins]
    rw [show (Except.ok (acc ++ [kv]) >>= fun out =>
        (dkeys rest).foldlM (fun out k =>
          match alookup k P with
          | some v => Except.ok (insertItem out k v)
          | none => Except.error (PyErr.keyError k)) out) =
        (dkeys rest).foldlM (fun out k =>
          match alookup k P with
          | some v => Except.ok (insertItem out k v)
          | none => Except.error (PyErr.keyError k)) (acc ++ [kv])
      from rfl]
    rw [hrec, List.append_assoc]
    rfl

/-- C3 (corrected): the strip/namespace round trip is an exact inverse for every
slot whose component model's self-reported identity equals its slot key (the
counterexample shows it fails otherwise): the stripped dict is exactly the
component's private dict, keyed by the original unnamespaced names, and
re-namespacing it reproduces the composite `param_dict`'s restriction to the
slot's namespaced keys. -/
theorem c3_amended {V : Type} (bp : SubhaloBlueprint V) (gl : List String)
    (P : PyDict V) (slot : String) (m : GalpropModel V) (d : PyDict V)
    (hfS : fOK (fSub bp) gl)
    (hok : subhaloSetInitParamDict bp gl = .ok P)
    (hgl : slot ∈ gl)
    (hs : alookup slot bp = some m)
    (hid : m.galprop_key = slot)
    (hd : m.param_dict = some d) :
    ∃ s, getStrippedParamDict bp P slot = .ok s ∧ dkeys s = dkeys d ∧
      ∃ r, dictComprehension P (dkeys (namespaceDict slot d)) = .ok r ∧
        namespaceDict slot s = r := by
  have hns : nsDict m = namespaceDict slot d := by
    unfold nsDict
    rw [hd, hid]
  have hfsub : fSub bp slot = .ok (namespaceDict slot d) := by
    unfold fSub
    simp only [hs]
    rw [hns]
  obtain ⟨d2, hfd2, hnd2⟩ := hfS slot hgl
  have hd2 : d2 = namespaceDict slot d := by
    rw [hfsub] at hfd2
    injection hfd2 with h2
    exact h2.symm
  rw [hd2] at hnd2
  have hbind : ∀ k v, alookup k (namespaceDict slot d) = some v →
      alookup k P = some v := by
    intro k v hkv
    exact merge_binds (fSub bp) gl [] P hfS List.nodup_nil hok slot hgl
      (namespaceDict slot d) hfsub k v hkv
  have hndd : (dkeys d).Nodup := by
    rw [dkeys_namespaceDict] at hnd2
    exact List.Nodup.of_map _ hnd2
  have hstrip : getStrippedParamDict bp P slot = .ok d := by
    unfold getStrippedParamDict
    simp only [hs, hd]
    have := strip_fold_eq P slot d [] hndd (fun k _ => rfl)
      (fun k v hkv => hbind (nsKey slot k) v (ns_lookup slot d hnd2 k v hkv))
    rw [this]
    rfl
  have hcomp : dictComprehension P (dkeys (namespaceDict slot d)) =
      .ok (namespaceDict slot d) := by
    unfold dictComprehension
    have := comp_fold_eq P (namespaceDict slot d) [] hnd2 (fun k _ => rfl) hbind
    rw [this]
    rfl
  exact ⟨d, hstrip, rfl, namespaceDict slot d, hcomp, rfl⟩

/-- C3 witness: the round trip applied to the one-slot blueprint whose slot key
and identity are both `'m'`. -/
theorem c3_amended_witness :
    ∃ s, getStrippedParamDict exBpC2 [(nsKey "m" "a", (1 : ℤ))] "m" = .ok s ∧
      dkeys s = dkeys [("a", (1 : ℤ))] ∧
      ∃ r, dictComprehension [(nsKey "m" "a", (1 : ℤ))]
          (dkeys (namespaceDict "m" [("a", (1 : ℤ))])) = .ok r ∧
        namespaceDict "m" s = r := by
  apply c3_amended exBpC2 ["m"] [(nsKey "m" "a", (1 : ℤ))] "m" exModelC2
    [("a", (1 : ℤ))]
  · intro x hx
    rw [List.mem_cons] at hx
    rcases hx with h | h
    · subst h
      exact ⟨[("m_a", 1)], rfl, by decide⟩
    · exact absurd h (List.not_mem_nil x)
  · rfl
  · exact List.mem_cons_self _ _
  · rfl
  · rfl
  · rfl

/-- C4: in both variants, a blueprint in which two component models produce the
same (namespaced) parameter key makes construction raise `KeyError` naming exactly
that colliding key (when it is the unique colliding key, matching the claim's
"that exact colliding key"), and the constructor returns no model object at all —
behaviors are bound only after the parameter merge, so no partially built
`param_dict` is ever exposed.  For the typed variant the hypothesis `fOK` requires
every feature component to own a `param_dict` (without one, construction aborts
even earlier with `AttributeError`, per C1). -/
theorem c4_duplicate_key_raises {V : Type} (bp : SubhaloBlueprint V)
    (seq : Option (List String)) (cl : SubhaloCompositeLists) (κ : String)
    (bpT : HodBlueprint V) (a0 : Attrs) (ps : List (String × ℚ)) (ts : List String)
    (κT : String)
    (hcl : subhaloBuildCompositeLists bp seq = .ok cl)
    (hfS : fOK (fSub bp) cl.galprop_list)
    (hκ : 2 ≤ keyCount (fSub bp) cl.galprop_list κ)
    (huniq : ∀ k, 2 ≤ keyCount (fSub bp) cl.galprop_list k → k = κ)
    (hps : galTypePairs bpT = .ok ps)
    (hts : ts = (List.insertionSort boundLe ps).map Prod.fst)
    (hlk : ∀ t ∈ ts, (alookup t bpT).isSome = true)
    (hfT : fOK fHod (hodFlatten bpT ts))
    (hκT : 2 ≤ keyCount fHod (hodFlatten bpT ts) κT)
    (huniqT : ∀ k, 2 ≤ keyCount fHod (hodFlatten bpT ts) k → k = κT) :
    constructSubhalo bp seq = .error (.keyError κ) ∧
    constructHod bpT a0 = .error (.keyError κT) := by
  constructor
  · have hset : subhaloSetInitParamDict bp cl.galprop_list = .error (.keyError κ) := by
      cases hres : subhaloSetInitParamDict bp cl.galprop_list with
      | ok P =>
        have := merge_ok_count (fSub bp) cl.galprop_list [] P hfS List.nodup_nil hres κ
        simp [alookup] at this
        omega
      | error e =>
        obtain ⟨k, hek, hcnt⟩ :=
          merge_err (fSub bp) cl.galprop_list [] e hfS List.nodup_nil hres
        simp [alookup] at hcnt
        rw [hek, huniq k hcnt]
    unfold constructSubhalo
    rw [hcl]
    simp only [hset]
  · have hset : hodSetInitParamDict bpT ts = .error (.keyError κT) := by
      unfold hodSetInitParamDict
      rw [hodSetInitOuter_eq bpT ts [] hlk]
      cases hres : mergeParamLoop fHod (hodFlatten bpT ts) [] with
      | ok Q =>
        have := merge_ok_count fHod (hodFlatten bpT ts) [] Q hfT List.nodup_nil hres κT
        simp [alookup] at this
        omega
      | error e =>
        obtain ⟨k, hek, hcnt⟩ :=
          merge_err fHod (hodFlatten bpT ts) [] e hfT List.nodup_nil hres
        simp [alookup] at hcnt
        rw [hek, huniqT k hcnt]
    unfold constructHod
    simp only [hps]
    rw [← hts]
    simp only [hset]

/-- C4 witness: the two-slot flat blueprint whose models share identity `"m"`
(colliding namespaced key `'m_a'`) and the one-type typed blueprint whose two
feature components share raw key `'p'`. -/
theorem c4_duplicate_key_raises_witness :
    constructSubhalo exBpC4 none = .error (.keyError (nsKey "m" "a")) ∧
    constructHod exBpC4T [] = .error (.keyError "p") := by
  apply c4_duplicate_key_raises exBpC4 none ⟨["g1", "g2"], [], [], .dict []⟩
    (nsKey "m" "a") exBpC4T [] [("centrals", 1)] ["centrals"] "p"
  · rfl
  · intro x hx
    rw [List.mem_cons, List.mem_cons] at hx
    rcases hx with h | h | h
    · subst h
      exact ⟨[(nsKey "m" "a", 1)], rfl, by decide⟩
    · subst h
      exact ⟨[(nsKey "m" "a", 7)], rfl, by decide⟩
    · exact absurd h (List.not_mem_nil x)
  · decide
  · intro k h2
    rw [keyCount_cons_ok (fSub exBpC4) "g1" ["g2"] k [(nsKey "m" "a", (1 : ℤ))] rfl] at h2
    rw [keyCount_cons_ok (fSub exBpC4) "g2" [] k [(nsKey "m" "a", (7 : ℤ))] rfl] at h2
    rw [keyCount_nil] at h2
    by_cases hc : (alookup k [(nsKey "m" "a", (1 : ℤ))]).isSome = true
    · have hm := (alookup_isSome_iff k _).mp hc
      rw [dkeys_cons] at hm
      rcases List.mem_cons.mp hm with h | h
      · exact h
      · exact absurd h (List.not_mem_nil k)
    · rw [if_neg hc] at h2
      split at h2 <;> omega
  · rfl
  · rfl
  · intro t ht
    rcases List.mem_cons.mp ht with h | h
    · subst h
      rfl
    · exact absurd h (List.not_mem_nil t)
  · intro c hc
    have he : hodFlatten exBpC4T ["centrals"] = [exOccC4, exProfC4] := rfl
    rw [he, List.mem_cons, List.mem_cons] at hc
    rcases hc with h | h | h
    · subst h
      exact ⟨[("p", 1)], rfl, by decide⟩
    · subst h
      exact ⟨[("p", 2)], rfl, by decide⟩
    · exact absurd h (List.not_mem_nil c)
  · decide
  · intro k h2
    have he : hodFlatten exBpC4T ["centrals"] = [exOccC4, exProfC4] := rfl
    rw [he] at h2
    rw [keyCount_cons_ok fHod exOccC4 [exProfC4] k [("p", (1 : ℤ))] rfl] at h2
    rw [keyCount_cons_ok fHod exProfC4 [] k [("p", (2 : ℤ))] rfl] at h2
    rw [keyCount_nil] at h2
    by_cases hc : (alookup k [("p", (1 : ℤ))]).isSome = true
    · have hm := (alookup_isSome_iff k _).mp hc
      rw [dkeys_cons] at hm
      rcases List.mem_cons.mp hm with h | h
      · exact h
      · exact absurd h (List.not_mem_nil k)
    · rw [if_neg hc] at h2
      split at h2 <;> omega

/-- C5: evidence for the `new_haloprop_func_dict` aggregation defect.  With two
contributing component models the first merge replaces the dict accumulator by a
Python list (`dict.items() + dict.items()` without a `dict(...)` wrapper, lines
222-225), so the second contribution raises `AttributeError('items')` — both when
the two models collide on key `'f'` (where the claim requires a `KeyError` naming
`'f'`) and when their keys `'f'`, `'g'` are disjoint (where the claim requires
success); with a single contributor construction succeeds but the aggregate is
left as a list of pairs rather than a mapping. -/
theorem c5_aux_dict_bug :
    subhaloBuildCompositeLists exBpC5coll none = .error (.attributeError "items") ∧
    subhaloBuildCompositeLists exBpC5disj none = .error (.attributeError "items") ∧
    (subhaloBuildCompositeLists exBpC5one none).map
      (fun cl => cl.new_haloprop_func_dict) = .ok (.list [("f", 10)]) :=
  ⟨rfl, rfl, rfl⟩

/-- C6 counterexample: the explicit ordering sequence `['a', 'a', 'b']` repeats a
key, so its size differs from the blueprint's slot-key set `{'a', 'b'}`; the claim
requires a hard error, but construction fully succeeds — the `set()` comparison on
line 192 ignores multiplicity — and the repeated sequence even becomes the
evaluation order. -/
theorem c6_counterexample :
    (constructSubhalo exBpC6 (some ["a", "a", "b"])).map (fun M => M.galprop_list)
      = .ok ["a", "a", "b"] := by
  rfl

/-- C6 (corrected): an explicit ordering sequence whose key set differs from the
blueprint's slot keys in *membership* raises the ordering `KeyError` at
construction; a sequence with the same membership — any permutation, and also a
sequence repeating a key, which the claim wrongly required to be rejected — is
accepted, and the composite's evaluation order (and the `mc_<galprop>` behavior
binding order) is exactly that sequence. -/
theorem c6_amended {V : Type} (bp : SubhaloBlueprint V) (seq : List String)
    (hfS : fOK (fSub bp) seq)
    (hc1 : ∀ k, keyCount (fSub bp) seq k ≤ 1)
    (hcl : ∃ st, subhaloCompositeLoop bp seq ([], [], .dict []) = .ok st) :
    (seq.toFinset ≠ ((dkeys bp).filter (fun k => k ≠ mockFactoryKey)).toFinset →
      constructSubhalo bp (some seq) = .error (.keyError galpropSequenceErrMsg)) ∧
    (seq.toFinset = ((dkeys bp).filter (fun k => k ≠ mockFactoryKey)).toFinset →
      ∃ M, constructSubhalo bp (some seq) = .ok M ∧ M.galprop_list = seq ∧
        M.behaviors = seq.map (fun g => "mc_" ++ g)) := by
  constructor
  · intro hne
    have hgl : subhaloGalpropList bp (some seq) = .error (.keyError galpropSequenceErrMsg) := by
      unfold subhaloGalpropList
      show (if seq.toFinset = ((dkeys bp).filter (fun k => k ≠ mockFactoryKey)).toFinset
          then Except.ok seq else Except.error (PyErr.keyError galpropSequenceErrMsg))
        = Except.error (PyErr.keyError galpropSequenceErrMsg)
      rw [if_neg hne]
    unfold constructSubhalo subhaloBuildCompositeLists
    simp only [hgl]
  · intro heq
    have hgl : subhaloGalpropList bp (some seq) = .ok seq := by
      unfold subhaloGalpropList
      show (if seq.toFinset = ((dkeys bp).filter (fun k => k ≠ mockFactoryKey)).toFinset
          then Except.ok seq else Except.error (PyErr.keyError galpropSequenceErrMsg))
        = Except.ok seq
      rw [if_pos heq]
    obtain ⟨st, hst⟩ := hcl
    have hbcl : subhaloBuildCompositeLists bp (some seq)
        = .ok ⟨seq, st.1.dedup, st.2.1.dedup, st.2.2⟩ := by
      unfold subhaloBuildCompositeLists
      simp only [hgl, hst]
    have hc0 : ∀ k, (alookup k ([] : PyDict V)).isSome = true →
        keyCount (fSub bp) seq k = 0 := by
      intro k hk
      exact absurd hk (by simp [alookup])
    obtain ⟨P, hP⟩ := merge_ok_exists (fSub bp) seq [] hfS List.nodup_nil hc0 hc1
    refine ⟨{ model_blueprint := bp, galprop_list := seq, haloprop_list := st.1.dedup,
              publications := st.2.1.dedup, new_haloprop_func_dict := st.2.2,
              param_dict := P, init_param_dict := P,
              behaviors := seq.map (fun g => "mc_" ++ g) }, ?_, rfl, rfl⟩
    have hP2 : subhaloSetInitParamDict bp seq = .ok P := hP
    unfold constructSubhalo
    simp only [hbcl, hP2]

/-- C6 witness: the permutation `['b', 'a']` of the two-slot blueprint's keys is
accepted and becomes the evaluation order (and the mismatching membership case is
covered by the first conjunct's implication). -/
theorem c6_amended_witness :
    ((["b", "a"] : List String).toFinset ≠
        ((dkeys exBpC6).filter (fun k => k ≠ mockFactoryKey)).toFinset →
      constructSubhalo exBpC6 (some ["b", "a"]) =
        .error (.keyError galpropSequenceErrMsg)) ∧
    ((["b", "a"] : List String).toFinset =
        ((dkeys exBpC6).filter (fun k => k ≠ mockFactoryKey)).toFinset →
      ∃ M, constructSubhalo exBpC6 (some ["b", "a"]) = .ok M ∧
        M.galprop_list = ["b", "a"] ∧
        M.behaviors = (["b", "a"] : List String).map (fun g => "mc_" ++ g)) := by
  apply c6_amended exBpC6 ["b", "a"]
  · intro x hx
    rw [List.mem_cons, List.mem_cons] at hx
    rcases hx with h | h | h
    · subst h
      exact ⟨[("b_p", 1)], rfl, by decide⟩
    · subst h
      exact ⟨[], rfl, List.nodup_nil⟩
    · exact absurd h (List.not_mem_nil x)
  · intro k
    rw [keyCount_cons_ok (fSub exBpC6) "b" ["a"] k [("b_p", (1 : ℤ))] rfl]
    rw [keyCount_cons_ok (fSub exBpC6) "a" [] k [] rfl]
    rw [keyCount_nil]
    have h0 : ¬ ((alookup k ([] : PyDict ℤ)).isSome = true) := by simp [alookup]
    rw [if_neg h0]
    split <;> omega
  · exact ⟨([], [], .dict []), rfl⟩

/-- Predicate selecting the galaxy types tied at occupation bound `c`. -/
def boundEq (c : ℚ) : (String × ℚ) → Bool := fun a => decide (a.2 = c)

theorem filter_orderedInsert_neg (c : ℚ) (a : String × ℚ) :
    ∀ L, a.2 ≠ c →
    (List.orderedInsert boundLe a L).filter (boundEq c) = L.filter (boundEq c) := by
  intro L
  induction L with
  | nil =>
    intro h
    simp [List.orderedInsert, boundEq, h]
  | cons b L ih =>
    intro h
    rw [List.orderedInsert]
    by_cases hr : boundLe a b
    · rw [if_pos hr]
      have hpa : boundEq c a = false := by simp [boundEq, h]
      rw [List.filter_cons, hpa]
      simp
    · rw [if_neg hr]
      rw [List.filter_cons, List.filter_cons, ih h]

theorem filter_orderedInsert_pos (c : ℚ) (a : String × ℚ) :
    ∀ L, a.2 = c →
    (List.orderedInsert boundLe a L).filter (boundEq c) =
      a :: L.filter (boundEq c) := by
  intro L
  induction L with
  | nil =>
    intro h
    simp [List.orderedInsert, boundEq, h]
  | cons b L ih =>
    intro h
    rw [List.orderedInsert]
    have hpa : boundEq c a = true := by simp [boundEq, h]
    by_cases hr : boundLe a b
    · rw [if_pos hr]
      rw [List.filter_cons, hpa]
      simp
    · rw [if_neg hr]
      have hb : b.2 ≠ c := by
        unfold boundLe at hr
        intro he
        rw [← h] at he
        exact hr (le_of_eq he.symm)
      have hpb : boundEq c b = false := by simp [boundEq, hb]
      rw [List.filter_cons, hpb]
      simp only [ih h]
      rw [List.filter_cons, hpb]
      simp

theorem insertionSort_stable_bound (c : ℚ) :
    ∀ L : List (String × ℚ),
    (List.insertionSort boundLe L).filter (boundEq c) = L.filter (boundEq c) := by
  intro L
  induction L with
  | nil => rfl
  | cons a L ih =>
    rw [List.insertionSort]
    by_cases h : a.2 = c
    · rw [filter_orderedInsert_pos c a _ h, ih, List.filter_cons]
      have hb : boundEq c a = true := by simp [boundEq, h]
      rw [hb]
      simp
    · rw [filter_orderedInsert_neg c a _ h, ih, List.filter_cons]
      have hb : boundEq c a = false := by simp [boundEq, h]
      rw [hb]
      simp

/-- C7: the typed variant's constructed galaxy-type order is the occupation-bound
sort of the declared (type, bound) pairs: it is sorted ascending by bound, it is a
permutation of the declarations, and it is stable — for every bound value the
types tied at that bound appear in their original declaration order; on the spec's
concrete input (centrals 1, satellites 20, orphans 1, declared in that order) the
constructed order is exactly ['centrals', 'orphans', 'satellites']. -/
theorem c7_gal_type_order {V : Type} (bp : HodBlueprint V)
    (ps : List (String × ℚ)) (hps : galTypePairs bp = .ok ps) :
    hodGalTypes bp = .ok ((List.insertionSort boundLe ps).map Prod.fst) ∧
    List.Sorted boundLe (List.insertionSort boundLe ps) ∧
    (List.insertionSort boundLe ps).Perm ps ∧
    (∀ c, (List.insertionSort boundLe ps).filter (boundEq c) =
      ps.filter (boundEq c)) ∧
    hodGalTypes exBpC7 = .ok ["centrals", "orphans", "satellites"] := by
  refine ⟨?_, ?_, ?_, ?_, ?_⟩
  · unfold hodGalTypes
    rw [hps]
  · exact List.sorted_insertionSort boundLe ps
  · exact List.perm_insertionSort boundLe ps
  · intro c
    exact insertionSort_stable_bound c ps
  · rfl

/-- C7 witness: the order theorem applied to the spec's three-type blueprint. -/
theorem c7_gal_type_order_witness :
    hodGalTypes exBpC7 =
      .ok ((List.insertionSort boundLe
        [("centrals", 1), ("satellites", 20), ("orphans", 1)]).map Prod.fst) ∧
    List.Sorted boundLe (List.insertionSort boundLe
      [("centrals", 1), ("satellites", 20), ("orphans", 1)]) ∧
    (List.insertionSort boundLe
      [("centrals", 1), ("satellites", 20), ("orphans", 1)]).Perm
      [("centrals", 1), ("satellites", 20), ("orphans", 1)] ∧
    (∀ c, (List.insertionSort boundLe
        [("centrals", 1), ("satellites", 20), ("orphans", 1)]).filter (boundEq c) =
      [("centrals", (1 : ℚ)), ("satellites", 20), ("orphans", 1)].filter (boundEq c)) ∧
    hodGalTypes exBpC7 = .ok ["centrals", "orphans", "satellites"] :=
  c7_gal_type_order exBpC7 [("centrals", 1), ("satellites", 20), ("orphans", 1)] rfl

/-- C9: for every galaxy type and input table, the bound position generator takes
the three equal-length coordinate arrays produced by the profile model's own
position sampler and maps row `i` to
`sample_i * (boundary_radius_i / 1000) + host_center_i`, componentwise, preserving
array length and row order; on the spec's one-row table (boundary radius 200, host
position (10, 20, 30), sample (0.1, 0, 0)) the result is (10.02, 20, 30), i.e.
(501/50, 20, 30) exactly. -/
theorem c9_mc_pos {V : Type} (bp : HodBlueprint V) (t : String) (table : List HRow)
    (prof : HodComponent V)
    (hp : hodProf bp t = some prof)
    (hx : (prof.mc_pos_fn table).1.length = table.length)
    (hy : (prof.mc_pos_fn table).2.1.length = table.length)
    (hz : (prof.mc_pos_fn table).2.2.length = table.length) :
    (∃ xs ys zs, mcPosHod bp t table = .ok (xs, ys, zs) ∧
      xs.length = table.length ∧ ys.length = table.length ∧
      zs.length = table.length ∧
      (∀ i, i < table.length →
        xs.getD i 0 = (prof.mc_pos_fn table).1.getD i 0 *
            ((table.getD i (fun _ => 0)) (hostHalopropHead ++ prof.halo_boundary) / 1000) +
          (table.getD i (fun _ => 0)) (hostHalopropHead ++ "x") ∧
        ys.getD i 0 = (prof.mc_pos_fn table).2.1.getD i 0 *
            ((table.getD i (fun _ => 0)) (hostHalopropHead ++ prof.halo_boundary) / 1000) +
          (table.getD i (fun _ => 0)) (hostHalopropHead ++ "y") ∧
        zs.getD i 0 = (prof.mc_pos_fn table).2.2.getD i 0 *
            ((table.getD i (fun _ => 0)) (hostHalopropHead ++ prof.halo_boundary) / 1000) +
          (table.getD i (fun _ => 0)) (hostHalopropHead ++ "z"))) ∧
    mcPosHod exBpC9 "centrals" [exRowC9] = .ok ([501 / 50], [20], [30]) := by
  constructor
  · have heq : mcPosHod bp t table = .ok
        (List.zipWith (fun x c => x + c)
          (List.zipWith (fun x r => x * (r / 1000)) (prof.mc_pos_fn table).1
            (table.map (fun row => row (hostHalopropHead ++ prof.halo_boundary))))
          (table.map (fun row => row (hostHalopropHead ++ "x"))),
        List.zipWith (fun y c => y + c)
          (List.zipWith (fun y r => y * (r / 1000)) (prof.mc_pos_fn table).2.1
            (table.map (fun row => row (hostHalopropHead ++ prof.halo_boundary))))
          (table.map (fun row => row (hostHalopropHead ++ "y"))),
        List.zipWith (fun z c => z + c)
          (List.zipWith (fun z r => z * (r / 1000)) (prof.mc_pos_fn table).2.2
            (table.map (fun row => row (hostHalopropHead ++ prof.halo_boundary))))
          (table.map (fun row => row (hostHalopropHead ++ "z")))) := by
      unfold mcPosHod
      rw [hp]
    refine ⟨_, _, _, heq, ?_, ?_, ?_, ?_⟩
    · rw [List.length_zipWith, List.length_zipWith, List.length_map,
        List.length_map, hx, Nat.min_self, Nat.min_self]
    · rw [List.length_zipWith, List.length_zipWith, List.length_map,
        List.length_map, hy, Nat.min_self, Nat.min_self]
    · rw [List.length_zipWith, List.length_zipWith, List.length_map,
        List.length_map, hz, Nat.min_self, Nat.min_self]
    · intro i hi
      have hi1 : i < (List.zipWith (fun x c => x + c)
          (List.zipWith (fun x r => x * (r / 1000)) (prof.mc_pos_fn table).1
            (table.map (fun row => row (hostHalopropHead ++ prof.halo_boundary))))
          (table.map (fun row => row (hostHalopropHead ++ "x")))).length := by
        rw [List.length_zipWith, List.length_zipWith, List.length_map,
          List.length_map, hx, Nat.min_self, Nat.min_self]
        exact hi
      have hi2 : i < (List.zipWith (fun y c => y + c)
          (List.zipWith (fun y r => y * (r / 1000)) (prof.mc_pos_fn table).2.1
            (table.map (fun row => row (hostHalopropHead ++ prof.halo_boundary))))
          (table.map (fun row => row (hostHalopropHead ++ "y")))).length := by
        rw [List.length_zipWith, List.length_zipWith, List.length_map,
          List.length_map, hy, Nat.min_self, Nat.min_self]
        exact hi
      have hi3 : i < (List.zipWith (fun z c => z + c)
          (List.zipWith (fun z r => z * (r / 1000)) (prof.mc_pos_fn table).2.2
            (table.map (fun row => row (hostHalopropHead ++ prof.halo_boundary))))
          (table.map (fun row => row (hostHalopropHead ++ "z")))).length := by
        rw [List.length_zipWith, List.length_zipWith, List.length_map,
          List.length_map, hz, Nat.min_self, Nat.min_self]
        exact hi
      refine ⟨?_, ?_, ?_⟩
      · rw [List.getD_eq_getElem _ _ hi1]
        simp only [List.getElem_zipWith, List.getElem_map]
        rw [List.getD_eq_getElem _ _ (show i < (prof.mc_pos_fn table).1.length by rw [hx]; exact hi)]
        rw [List.getD_eq_getElem _ _ hi]
      · rw [List.getD_eq_getElem _ _ hi2]
        simp only [List.getElem_zipWith, List.getElem_map]
        rw [List.getD_eq_getElem _ _ (show i < (prof.mc_pos_fn table).2.1.length by rw [hy]; exact hi)]
        rw [List.getD_eq_getElem _ _ hi]
      · rw [List.getD_eq_getElem _ _ hi3]
        simp only [List.getElem_zipWith, List.getElem_map]
        rw [List.getD_eq_getElem _ _ (show i < (prof.mc_pos_fn table).2.2.length by rw [hz]; exact hi)]
        rw [List.getD_eq_getElem _ _ hi]
  · have hstep : mcPosHod exBpC9 "centrals" [exRowC9] =
        .ok ([1 / 10 * ((200 : ℚ) / 1000) + 10], [0 * ((200 : ℚ) / 1000) + 20],
          [0 * ((200 : ℚ) / 1000) + 30]) := rfl
    rw [hstep]
    simp only [Except.ok.injEq, Prod.mk.injEq, List.cons.injEq, and_true]
    norm_num

/-- C9 witness: the position transform applied to the spec's one-row table. -/
theorem c9_mc_pos_witness :
    (∃ xs ys zs, mcPosHod exBpC9 "centrals" [exRowC9] = .ok (xs, ys, zs) ∧
      xs.length = ([exRowC9] : List HRow).length ∧
      ys.length = ([exRowC9] : List HRow).length ∧
      zs.length = ([exRowC9] : List HRow).length ∧
      (∀ i, i < ([exRowC9] : List HRow).length →
        xs.getD i 0 = (exProfC9.mc_pos_fn [exRowC9]).1.getD i 0 *
            ((([exRowC9] : List HRow).getD i (fun _ => 0))
              (hostHalopropHead ++ exProfC9.halo_boundary) / 1000) +
          (([exRowC9] : List HRow).getD i (fun _ => 0)) (hostHalopropHead ++ "x") ∧
        ys.getD i 0 = (exProfC9.mc_pos_fn [exRowC9]).2.1.getD i 0 *
            ((([exRowC9] : List HRow).getD i (fun _ => 0))
              (hostHalopropHead ++ exProfC9.halo_boundary) / 1000) +
          (([exRowC9] : List HRow).getD i (fun _ => 0)) (hostHalopropHead ++ "y") ∧
        zs.getD i 0 = (exProfC9.mc_pos_fn [exRowC9]).2.2.getD i 0 *
            ((([exRowC9] : List HRow).getD i (fun _ => 0))
              (hostHalopropHead ++ exProfC9.halo_boundary) / 1000) +
          (([exRowC9] : List HRow).getD i (fun _ => 0)) (hostHalopropHead ++ "z"))) ∧
    mcPosHod exBpC9 "centrals" [exRowC9] = .ok ([501 / 50], [20], [30]) :=
  c9_mc_pos exBpC9 "centrals" [exRowC9] exProfC9 rfl rfl rfl rfl

/-! Lemmas for the profile-parameter behavior binding (claim C8). -/

theorem bindProfKeys_cons_skip {V : Type} (prof : HodComponent V) (t k : String)
    (ks : List String) (a : Attrs)
    (hha : (alookup (genHaloName k) a).isSome = true) :
    bindProfKeys prof t (k :: ks) a =
      match alookup k prof.methods with
      | some g => bindProfKeys prof t ks (setattrA a (genGalName k t) (.func g))
      | none => .error (.attributeError k) := by
  conv_lhs => unfold bindProfKeys
  rw [if_pos hha]

theorem bindProfKeys_cons_bind {V : Type} (prof : HodComponent V) (t k : String)
    (ks : List String) (a : Attrs) (f : Nat)
    (hha : (alookup (genHaloName k) a).isSome = false)
    (hf : alookup k prof.halo_methods = some f) :
    bindProfKeys prof t (k :: ks) a =
      match alookup k prof.methods with
      | some g => bindProfKeys prof t ks
          (setattrA (setattrA a (genHaloName k) (.func f)) (genGalName k t) (.func g))
      | none => .error (.attributeError k) := by
  have hc : ¬ ((alookup (genHaloName k) a).isSome = true) := by
    rw [hha]
    simp
  conv_lhs => unfold bindProfKeys
  rw [if_neg hc, hf]

theorem bindProfKeys_frame {V : Type} (prof : HodComponent V) (t : String) :
    ∀ (ks : List String) (a a2 : Attrs), bindProfKeys prof t ks a = .ok a2 →
    ∀ n, (∀ k ∈ ks, n ≠ genHaloName k ∧ n ≠ genGalName k t) →
    alookup n a2 = alookup n a := by
  intro ks
  induction ks with
  | nil =>
    intro a a2 hok n _
    cases hok
    rfl
  | cons k ks ih =>
    intro a a2 hok n hn
    have hnk := hn k (List.mem_cons_self _ _)
    by_cases hha : (alookup (genHaloName k) a).isSome = true
    · rw [bindProfKeys_cons_skip prof t k ks a hha] at hok
      cases hg : alookup k prof.methods with
      | none => rw [hg] at hok; exact Except.noConfusion hok
      | some g =>
        rw [hg] at hok
        have := ih _ a2 hok n (fun z hz => hn z (List.mem_cons_of_mem _ hz))
        rw [this]
        unfold setattrA
        exact alookup_insertItem_ne a (genGalName k t) n (AttrVal.func g) hnk.2
    · cases hf : alookup k prof.halo_methods with
      | none =>
        unfold bindProfKeys at hok
        have hc : ¬ ((alookup (genHaloName k) a).isSome = true) := hha
        rw [if_neg hc, hf] at hok
        exact Except.noConfusion hok
      | some f =>
        rw [bindProfKeys_cons_bind prof t k ks a f (by simpa using hha) hf] at hok
        cases hg : alookup k prof.methods with
        | none => rw [hg] at hok; exact Except.noConfusion hok
        | some g =>
          rw [hg] at hok
          have := ih _ a2 hok n (fun z hz => hn z (List.mem_cons_of_mem _ hz))
          rw [this]
          unfold setattrA
          rw [alookup_insertItem_ne _ (genGalName k t) n (AttrVal.func g) hnk.2]
          exact alookup_insertItem_ne a (genHaloName k) n (AttrVal.func f) hnk.1

theorem bindProfKeys_append {V : Type} (prof : HodComponent V) (t : String) :
    ∀ (l1 l2 : List String) (a : Attrs),
    bindProfKeys prof t (l1 ++ l2) a =
      match bindProfKeys prof t l1 a with
      | .ok a1 => bindProfKeys prof t l2 a1
      | .error e => .error e := by
  intro l1
  induction l1 with
  | nil =>
    intro l2 a
    rfl
  | cons k l1 ih =>
    intro l2 a
    by_cases hha : (alookup (genHaloName k) a).isSome = true
    · rw [List.cons_append, bindProfKeys_cons_skip prof t k (l1 ++ l2) a hha,
        bindProfKeys_cons_skip prof t k l1 a hha]
      cases hg : alookup k prof.methods with
      | none => rfl
      | some g => exact ih l2 _
    · cases hf : alookup k prof.halo_methods with
      | none =>
        have hc : ¬ ((alookup (genHaloName k) a).isSome = true) := hha
        rw [List.cons_append]
        conv_lhs => unfold bindProfKeys
        rw [if_neg hc, hf]
        conv_rhs => unfold bindProfKeys
        rw [if_neg hc, hf]
      | some f =>
        rw [List.cons_append,
          bindProfKeys_cons_bind prof t k (l1 ++ l2) a f (by simpa using hha) hf,
          bindProfKeys_cons_bind prof t k l1 a f (by simpa using hha) hf]
        cases hg : alookup k prof.methods with
        | none => rfl
        | some g => exact ih l2 _

theorem bindProfKeys_track {V : Type} (prof : HodComponent V) (t κ : String)
    (g h : Nat) (hg : alookup κ prof.methods = some g)
    (hh : alookup κ prof.halo_methods = some h) :
    ∀ (ks : List String) (a a2 : Attrs), bindProfKeys prof t ks a = .ok a2 →
    κ ∈ ks → ks.Nodup →
    (∀ k ∈ ks, genGalName k t = genGalName κ t → k = κ) →
    (∀ k ∈ ks, genHaloName k ≠ genGalName κ t) →
    (∀ k ∈ ks, genHaloName k = genHaloName κ → k = κ) →
    (∀ k ∈ ks, genGalName k t ≠ genHaloName κ) →
    alookup (genHaloName κ) a = none →
    alookup (genGalName κ t) a2 = some (.func g) ∧
    alookup (genHaloName κ) a2 = some (.func h) := by
  intro ks
  induction ks with
  | nil =>
    intro a a2 _ hm
    exact absurd hm (List.not_mem_nil κ)
  | cons k ks ih =>
    intro a a2 hok hm hnd hc1 hc2 hc3 hc4 hNh
    rw [List.nodup_cons] at hnd
    rcases List.mem_cons.mp hm with hkk | hm2
    · subst hkk
      have hha : (alookup (genHaloName κ) a).isSome = false := by
        rw [hNh]
        rfl
      rw [bindProfKeys_cons_bind prof t κ ks a h hha hh, hg] at hok
      have hBne : genGalName κ t ≠ genHaloName κ := hc4 κ (List.mem_cons_self _ _)
      have hB : alookup (genGalName κ t)
          (setattrA (setattrA a (genHaloName κ) (AttrVal.func h)) (genGalName κ t)
            (AttrVal.func g)) = some (.func g) := by
        unfold setattrA
        exact alookup_insertItem_self _ (genGalName κ t) (AttrVal.func g)
      have hH : alookup (genHaloName κ)
          (setattrA (setattrA a (genHaloName κ) (AttrVal.func h)) (genGalName κ t)
            (AttrVal.func g)) = some (.func h) := by
        unfold setattrA
        rw [alookup_insertItem_ne _ (genGalName κ t) (genHaloName κ) (AttrVal.func g)
          (fun he => hBne he.symm)]
        exact alookup_insertItem_self a (genHaloName κ) (AttrVal.func h)
      constructor
      · have := bindProfKeys_frame prof t ks _ a2 hok (genGalName κ t) ?_
        · rw [this, hB]
        · intro k2 hk2
          refine ⟨fun he => (hc2 k2 (List.mem_cons_of_mem _ hk2)) he.symm, ?_⟩
          intro he
          exact hnd.1 ((hc1 k2 (List.mem_cons_of_mem _ hk2) he.symm) ▸ hk2)
      · have := bindProfKeys_frame prof t ks _ a2 hok (genHaloName κ) ?_
        · rw [this, hH]
        · intro k2 hk2
          refine ⟨?_, fun he => (hc4 k2 (List.mem_cons_of_mem _ hk2)) he.symm⟩
          intro he
          exact hnd.1 ((hc3 k2 (List.mem_cons_of_mem _ hk2) he.symm) ▸ hk2)
    · have hkne : k ≠ κ := fun he => hnd.1 (he ▸ hm2)
      have hstep : ∀ a3, bindProfKeys prof t ks a3 = .ok a2 →
          alookup (genHaloName κ) a3 = none →
          alookup (genGalName κ t) a2 = some (.func g) ∧
          alookup (genHaloName κ) a2 = some (.func h) := by
        intro a3 h3 hN3
        exact ih a3 a2 h3 hm2 hnd.2
          (fun z hz => hc1 z (List.mem_cons_of_mem _ hz))
          (fun z hz => hc2 z (List.mem_cons_of_mem _ hz))
          (fun z hz => hc3 z (List.mem_cons_of_mem _ hz))
          (fun z hz => hc4 z (List.mem_cons_of_mem _ hz)) hN3
      by_cases hha : (alookup (genHaloName k) a).isSome = true
      · rw [bindProfKeys_cons_skip prof t k ks a hha] at hok
        cases hgk : alookup k prof.methods with
        | none => rw [hgk] at hok; exact Except.noConfusion hok
        | some gk =>
          rw [hgk] at hok
          apply hstep _ hok
          unfold setattrA
          rw [alookup_insertItem_ne _ (genGalName k t) (genHaloName κ) (AttrVal.func gk)
            (fun he => (hc4 k (List.mem_cons_self _ _)) he.symm)]
          exact hNh
      · cases hfk : alookup k prof.halo_methods with
        | none =>
          have hc : ¬ ((alookup (genHaloName k) a).isSome = true) := hha
          unfold bindProfKeys at hok
          rw [if_neg hc, hfk] at hok
          exact Except.noConfusion hok
        | some fk =>
          rw [bindProfKeys_cons_bind prof t k ks a fk (by simpa using hha) hfk] at hok
          cases hgk : alookup k prof.methods with
          | none => rw [hgk] at hok; exact Except.noConfusion hok
          | some gk =>
            rw [hgk] at hok
            apply hstep _ hok
            unfold setattrA
            rw [alookup_insertItem_ne _ (genGalName k t) (genHaloName κ) (AttrVal.func gk)
              (fun he => (hc4 k (List.mem_cons_self _ _)) he.symm)]
            rw [alookup_insertItem_ne a (genHaloName k) (genHaloName κ) (AttrVal.func fk)
              (fun he => hkne (hc3 k (List.mem_cons_self _ _) he.symm))]
            exact hNh

theorem bindGalType_parts {V : Type} (bp : HodBlueprint V) (t : String)
    (a a2 : Attrs) (hok : bindGalType bp t a = .ok a2) :
    ∃ prof ks a0 a1,
      hodProf bp t = some prof ∧ prof.prof_param_keys = some ks ∧
      (∀ n, n ≠ mcOccName t → n ≠ meanOccName t → alookup n a0 = alookup n a) ∧
      bindProfKeys prof t ks a0 = .ok a1 ∧
      a2 = setattrA a1 (posName t) (.pos t) := by
  unfold bindGalType at hok
  cases hfd : alookup t bp with
  | none => rw [hfd] at hok; exact Except.noConfusion hok
  | some fd =>
    simp only [hfd] at hok
    cases hocc : alookup occupationKey fd with
    | none => simp only [hocc] at hok; exact Except.noConfusion hok
    | some occ =>
      simp only [hocc] at hok
      cases hmco : alookup mcOccupationKey occ.methods with
      | none => simp only [hmco] at hok; exact Except.noConfusion hok
      | some mco =>
        simp only [hmco] at hok
        cases hprf : alookup profileKey fd with
        | none => simp only [hprf] at hok; exact Except.noConfusion hok
        | some prof =>
          simp only [hprf] at hok
          cases hks : prof.prof_param_keys with
          | none => simp only [hks] at hok; exact Except.noConfusion hok
          | some ks =>
            simp only [hks] at hok
            have hhp : hodProf bp t = some prof := by
              unfold hodProf
              rw [hfd]
              exact hprf
            cases hmeo : alookup meanOccupationKey occ.methods with
            | none =>
              rw [hmeo] at hok
              cases hbpk : bindProfKeys prof t ks
                  (setattrA a (mcOccName t) (.mcOcc t mco)) with
              | error e => rw [hbpk] at hok; exact Except.noConfusion hok
              | ok a1 =>
                rw [hbpk] at hok
                refine ⟨prof, ks, setattrA a (mcOccName t) (.mcOcc t mco), a1,
                  hhp, hks, ?_, hbpk, by injection hok with h2; exact h2.symm⟩
                intro n hn1 _
                unfold setattrA
                exact alookup_insertItem_ne a (mcOccName t) n (AttrVal.mcOcc t mco) hn1
            | some meo =>
              rw [hmeo] at hok
              cases hbpk : bindProfKeys prof t ks
                  (setattrA (setattrA a (mcOccName t) (.mcOcc t mco))
                    (meanOccName t) (.meanOcc t meo)) with
              | error e => rw [hbpk] at hok; exact Except.noConfusion hok
              | ok a1 =>
                rw [hbpk] at hok
                refine ⟨prof, ks,
                  setattrA (setattrA a (mcOccName t) (.mcOcc t mco))
                    (meanOccName t) (.meanOcc t meo), a1,
                  hhp, hks, ?_, hbpk, by injection hok with h2; exact h2.symm⟩
                intro n hn1 hn2
                unfold setattrA
                rw [alookup_insertItem_ne _ (meanOccName t) n (AttrVal.meanOcc t meo) hn2]
                exact alookup_insertItem_ne a (mcOccName t) n (AttrVal.mcOcc t mco) hn1

theorem hodProfKeys_eq {V : Type} (bp : HodBlueprint V) (t : String)
    (prof : HodComponent V) (ks : List String)
    (hp : hodProf bp t = some prof) (hks : prof.prof_param_keys = some ks) :
    hodProfKeys bp t = ks := by
  unfold hodProfKeys
  rw [hp]
  simp [hks]

theorem bindGalType_frame {V : Type} (bp : HodBlueprint V) (t : String)
    (a a2 : Attrs) (hok : bindGalType bp t a = .ok a2) (n : String)
    (h1 : n ≠ mcOccName t) (h2 : n ≠ meanOccName t) (h3 : n ≠ posName t)
    (h4 : ∀ k ∈ hodProfKeys bp t, n ≠ genHaloName k ∧ n ≠ genGalName k t) :
    alookup n a2 = alookup n a := by
  obtain ⟨prof, ks, a0, a1, hhp, hks, hfr0, hbpk, ha2⟩ := bindGalType_parts bp t a a2 hok
  have hkeq : hodProfKeys bp t = ks := hodProfKeys_eq bp t prof ks hhp hks
  rw [ha2]
  unfold setattrA
  rw [alookup_insertItem_ne a1 (posName t) n (AttrVal.pos t) h3]
  rw [bindProfKeys_frame prof t ks a0 a1 hbpk n (by rw [← hkeq] at *; exact h4)]
  exact hfr0 n h1 h2

theorem bindGalType_track {V : Type} (bp : HodBlueprint V) (t κ : String)
    (p : HodComponent V) (g h : Nat) (a a2 : Attrs)
    (hok : bindGalType bp t a = .ok a2)
    (hprof : hodProf bp t = some p)
    (hg : alookup κ p.methods = some g) (hh : alookup κ p.halo_methods = some h)
    (hκ : κ ∈ hodProfKeys bp t) (hndk : (hodProfKeys bp t).Nodup)
    (hc1 : ∀ k ∈ hodProfKeys bp t, genGalName k t = genGalName κ t → k = κ)
    (hc2 : ∀ k ∈ hodProfKeys bp t, genHaloName k ≠ genGalName κ t)
    (hc3 : ∀ k ∈ hodProfKeys bp t, genHaloName k = genHaloName κ → k = κ)
    (hc4 : ∀ k ∈ hodProfKeys bp t, genGalName k t ≠ genHaloName κ)
    (hm1 : mcOccName t ≠ genHaloName κ) (hm2 : meanOccName t ≠ genHaloName κ)
    (hm3 : posName t ≠ genHaloName κ) (hm4 : posName t ≠ genGalName κ t)
    (hNh : alookup (genHaloName κ) a = none) :
    alookup (genGalName κ t) a2 = some (.func g) ∧
    alookup (genHaloName κ) a2 = some (.func h) := by
  obtain ⟨prof, ks, a0, a1, hhp, hks, hfr0, hbpk, ha2⟩ := bindGalType_parts bp t a a2 hok
  have hpe : prof = p := by
    rw [hprof] at hhp
    injection hhp with h2
    exact h2.symm
  subst hpe
  have hkeq : hodProfKeys bp t = ks := hodProfKeys_eq bp t prof ks hhp hks
  rw [hkeq] at hκ hndk hc1 hc2 hc3 hc4
  have hNh0 : alookup (genHaloName κ) a0 = none := by
    rw [hfr0 (genHaloName κ) (fun he => hm1 he.symm) (fun he => hm2 he.symm)]
    exact hNh
  have htrack := bindProfKeys_track prof t κ g h hg hh ks a0 a1 hbpk hκ hndk
    hc1 hc2 hc3 hc4 hNh0
  rw [ha2]
  unfold setattrA
  constructor
  · rw [alookup_insertItem_ne a1 (posName t) (genGalName κ t) (AttrVal.pos t)
      (fun he => hm4 he.symm)]
    exact htrack.1
  · rw [alookup_insertItem_ne a1 (posName t) (genHaloName κ) (AttrVal.pos t)
      (fun he => hm3 he.symm)]
    exact htrack.2

theorem bindLoop1_append {V : Type} (bp : HodBlueprint V) :
    ∀ (l1 l2 : List String) (a : Attrs),
    bindLoop1 bp (l1 ++ l2) a =
      match bindLoop1 bp l1 a with
      | .ok a1 => bindLoop1 bp l2 a1
      | .error e => .error e := by
  intro l1
  induction l1 with
  | nil =>
    intro l2 a
    rfl
  | cons t l1 ih =>
    intro l2 a
    rw [List.cons_append]
    show (match bindGalType bp t a with
      | .ok a3 => bindLoop1 bp (l1 ++ l2) a3
      | .error e => .error e) = _
    cases hbg : bindGalType bp t a with
    | error e =>
      show Except.error e = _
      have : bindLoop1 bp (t :: l1) a = .error e := by
        show (match bindGalType bp t a with
          | .ok a3 => bindLoop1 bp l1 a3
          | .error e => .error e) = _
        rw [hbg]
      rw [this]
    | ok a3 =>
      have : bindLoop1 bp (t :: l1) a = bindLoop1 bp l1 a3 := by
        show (match bindGalType bp t a with
          | .ok a4 => bindLoop1 bp l1 a4
          | .error e => .error e) = _
        rw [hbg]
      rw [this]
      exact ih l2 a3

theorem bindLoop1_frame {V : Type} (bp : HodBlueprint V) :
    ∀ (rem : List String) (a a2 : Attrs), bindLoop1 bp rem a = .ok a2 →
    ∀ n, (∀ t ∈ rem, n ≠ mcOccName t ∧ n ≠ meanOccName t ∧ n ≠ posName t ∧
      ∀ k ∈ hodProfKeys bp t, n ≠ genHaloName k ∧ n ≠ genGalName k t) →
    alookup n a2 = alookup n a := by
  intro rem
  induction rem with
  | nil =>
    intro a a2 hok n _
    cases hok
    rfl
  | cons t rem ih =>
    intro a a2 hok n hn
    have hstep : (match bindGalType bp t a with
        | .ok a3 => bindLoop1 bp rem a3
        | .error e => (.error e : Except PyErr Attrs)) = .ok a2 := hok
    cases hbg : bindGalType bp t a with
    | error e => rw [hbg] at hstep; exact Except.noConfusion hstep
    | ok a3 =>
      rw [hbg] at hstep
      have hnt := hn t (List.mem_cons_self _ _)
      rw [ih a3 a2 hstep n (fun z hz => hn z (List.mem_cons_of_mem _ hz))]
      exact bindGalType_frame bp t a a3 hbg n hnt.1 hnt.2.1 hnt.2.2.1 hnt.2.2.2

theorem fallbackTypes_mono (k : String) :
    ∀ (ts : List String) (a a2 : Attrs), fallbackTypes k ts a = .ok a2 →
    ∀ n v, alookup n a = some v → alookup n a2 = some v := by
  intro ts
  induction ts with
  | nil =>
    intro a a2 hok n v hnv
    cases hok
    exact hnv
  | cons t ts ih =>
    intro a a2 hok n v hnv
    by_cases hhas : (alookup (genGalName k t) a).isSome = true
    · unfold fallbackTypes at hok
      rw [if_pos hhas] at hok
      exact ih a a2 hok n v hnv
    · have hnone : alookup (genGalName k t) a = none := by
        cases hl : alookup (genGalName k t) a
        · rfl
        · rw [hl] at hhas; exact absurd rfl hhas
      cases hb : alookup (genHaloName k) a with
      | none =>
        unfold fallbackTypes at hok
        rw [if_neg hhas, hb] at hok
        exact Except.noConfusion hok
      | some b =>
        unfold fallbackTypes at hok
        rw [if_neg hhas, hb] at hok
        apply ih _ a2 hok n v
        unfold setattrA
        have hne : n ≠ genGalName k t := by
          intro he
          rw [he, hnone] at hnv
          exact Option.noConfusion hnv
        rw [alookup_insertItem_ne a (genGalName k t) n b hne]
        exact hnv

theorem fallbackTypes_frame (k : String) :
    ∀ (ts : List String) (a a2 : Attrs), fallbackTypes k ts a = .ok a2 →
    ∀ n, (∀ t ∈ ts, n ≠ genGalName k t) →
    alookup n a2 = alookup n a := by
  intro ts
  induction ts with
  | nil =>
    intro a a2 hok n _
    cases hok
    rfl
  | cons t ts ih =>
    intro a a2 hok n hn
    by_cases hhas : (alookup (genGalName k t) a).isSome = true
    · unfold fallbackTypes at hok
      rw [if_pos hhas] at hok
      exact ih a a2 hok n (fun z hz => hn z (List.mem_cons_of_mem _ hz))
    · cases hb : alookup (genHaloName k) a with
      | none =>
        unfold fallbackTypes at hok
        rw [if_neg hhas, hb] at hok
        exact Except.noConfusion hok
      | some b =>
        unfold fallbackTypes at hok
        rw [if_neg hhas, hb] at hok
        rw [ih _ a2 hok n (fun z hz => hn z (List.mem_cons_of_mem _ hz))]
        unfold setattrA
        exact alookup_insertItem_ne a (genGalName k t) n b (hn t (List.mem_cons_self _ _))

theorem fallbackTypes_value (k : String) :
    ∀ (ts : List String) (a a2 : Attrs) (v : AttrVal),
    fallbackTypes k ts a = .ok a2 →
    alookup (genHaloName k) a = some v →
    ∀ t2 ∈ ts,
    (alookup (genGalName k t2) a = none ∨ alookup (genGalName k t2) a = some v) →
    alookup (genGalName k t2) a2 = some v := by
  intro ts
  induction ts with
  | nil =>
    intro a a2 v _ _ t2 hm
    exact absurd hm (List.not_mem_nil t2)
  | cons t ts ih =>
    intro a a2 v hok hhalo t2 hm hd
    by_cases hhas : (alookup (genGalName k t) a).isSome = true
    · unfold fallbackTypes at hok
      rw [if_pos hhas] at hok
      rcases List.mem_cons.mp hm with he | hm2
      · subst he
        rcases hd with hd | hd
        · rw [hd] at hhas
          simp at hhas
        · exact fallbackTypes_mono k ts a a2 hok _ v hd
      · exact ih a a2 v hok hhalo t2 hm2 hd
    · have hnone : alookup (genGalName k t) a = none := by
        cases hl : alookup (genGalName k t) a
        · rfl
        · rw [hl] at hhas; exact absurd rfl hhas
      cases hb : alookup (genHaloName k) a with
      | none => rw [hb] at hhalo; exact Option.noConfusion hhalo
      | some b =>
        have hbv : b = v := by
          rw [hb] at hhalo
          injection hhalo
        subst hbv
        unfold fallbackTypes at hok
        rw [if_neg hhas, hb] at hok
        have hhalo2 : alookup (genHaloName k) (setattrA a (genGalName k t) b) = some b := by
          unfold setattrA
          have hne : genHaloName k ≠ genGalName k t := by
            intro he
            rw [← he, hb] at hnone
            exact Option.noConfusion hnone
          rw [alookup_insertItem_ne a (genGalName k t) (genHaloName k) b hne]
          exact hb
        rcases List.mem_cons.mp hm with he | hm2
        · subst he
          apply fallbackTypes_mono k ts _ a2 hok _ b
          unfold setattrA
          exact alookup_insertItem_self a (genGalName k t2) b
        · apply ih _ a2 b hok hhalo2 t2 hm2
          by_cases hne : genGalName k t2 = genGalName k t
          · right
            rw [hne]
            unfold setattrA
            exact alookup_insertItem_self a (genGalName k t) b
          · unfold setattrA
            rw [alookup_insertItem_ne a (genGalName k t) (genGalName k t2) b hne]
            exact hd

theorem bindLoop2_mono (ts : List String) :
    ∀ (ppks : List String) (a a2 : Attrs), bindLoop2 ts ppks a = .ok a2 →
    ∀ n v, alookup n a = some v → alookup n a2 = some v := by
  intro ppks
  induction ppks with
  | nil =>
    intro a a2 hok n v hnv
    cases hok
    exact hnv
  | cons k ks ih =>
    intro a a2 hok n v hnv
    have hstep : (match fallbackTypes k ts a with
        | .ok a3 => bindLoop2 ts ks a3
        | .error e => (.error e : Except PyErr Attrs)) = .ok a2 := hok
    cases hft : fallbackTypes k ts a with
    | error e => rw [hft] at hstep; exact Except.noConfusion hstep
    | ok a3 =>
      rw [hft] at hstep
      exact ih a3 a2 hstep n v (fallbackTypes_mono k ts a a3 hft n v hnv)

theorem bindLoop2_value (ts : List String) (κ : String) :
    ∀ (ppks : List String) (a a2 : Attrs) (v : AttrVal),
    bindLoop2 ts ppks a = .ok a2 → κ ∈ ppks →
    (∀ k2 ∈ ppks, k2 ≠ κ → ∀ t1 ∈ ts, ∀ t2 ∈ ts,
      genGalName k2 t1 ≠ genGalName κ t2) →
    alookup (genHaloName κ) a = some v →
    ∀ t2 ∈ ts,
    (alookup (genGalName κ t2) a = none ∨ alookup (genGalName κ t2) a = some v) →
    alookup (genGalName κ t2) a2 = some v := by
  intro ppks
  induction ppks with
  | nil =>
    intro a a2 v _ hm
    exact absurd hm (List.not_mem_nil κ)
  | cons k ks ih =>
    intro a a2 v hok hm hdist hhalo t2 ht2 hd
    have hstep : (match fallbackTypes k ts a with
        | .ok a3 => bindLoop2 ts ks a3
        | .error e => (.error e : Except PyErr Attrs)) = .ok a2 := hok
    cases hft : fallbackTypes k ts a with
    | error e => rw [hft] at hstep; exact Except.noConfusion hstep
    | ok a3 =>
      rw [hft] at hstep
      by_cases hkκ : k = κ
      · subst hkκ
        have hval := fallbackTypes_value k ts a a3 v hft hhalo t2 ht2 hd
        exact bindLoop2_mono ts ks a3 a2 hstep _ v hval
      · have hfr : alookup (genGalName κ t2) a3 = alookup (genGalName κ t2) a := by
          apply fallbackTypes_frame k ts a a3 hft
          intro z hz
          exact (hdist k (List.mem_cons_self _ _) hkκ z hz t2 ht2).symm
        have hhalo3 : alookup (genHaloName κ) a3 = some v :=
          fallbackTypes_mono k ts a a3 hft _ v hhalo
        have hm2 : κ ∈ ks := by
          rcases List.mem_cons.mp hm with he | hm2
          · exact absurd he.symm hkκ
          · exact hm2
        apply ih a3 a2 v hstep hm2
          (fun z hz hne t3 ht3 t4 ht4 => hdist z (List.mem_cons_of_mem _ hz) hne t3 ht3 t4 ht4)
          hhalo3 t2 ht2
        rw [hfr]
        exact hd

/-- C8: in the typed variant's behavior binding, a profile-parameter key κ declared
by exactly one galaxy type t0 ends with the shared halo-level accessor
`<κ>_halos` bound to the declaring profile's halo-model accessor object, t0's own
per-type accessor `<κ>_<t0>` bound to the profile's own accessor object and never
overwritten by the final fallback pass, and every other galaxy type's per-type
accessor bound by the fallback pass to the very same object as the shared
halo-level accessor (identity-equal, never a copy).  The name-hygiene hypotheses
say that the generated attribute names do not collide, which holds for the
factory's `mc_occupation_`/`mean_occupation_`/`pos_`/`<key>_<type>`/`<key>_halos`
naming scheme whenever no galaxy type is literally named `'halos'`. -/
theorem c8 {V : Type} (bp : HodBlueprint V) (ts ppks : List String) (a0 A : Attrs)
    (t0 κ : String) (p : HodComponent V) (g h : Nat)
    (hA : setPrimaryBehaviorsHod bp ts ppks a0 = .ok A)
    (hnd : ts.Nodup) (ht0 : t0 ∈ ts) (hκpp : κ ∈ ppks)
    (hprof : hodProf bp t0 = some p)
    (hg : alookup κ p.methods = some g) (hh : alookup κ p.halo_methods = some h)
    (hκ : κ ∈ hodProfKeys bp t0) (hndk : (hodProfKeys bp t0).Nodup)
    (honly : ∀ t ∈ ts, t ≠ t0 → κ ∉ hodProfKeys bp t)
    (Hgg : ∀ t ∈ ts, ∀ k ∈ hodProfKeys bp t, ∀ t2 ∈ ts,
      genGalName k t = genGalName κ t2 → k = κ ∧ t = t2)
    (Hgg2 : ∀ k2 ∈ ppks, k2 ≠ κ → ∀ t1 ∈ ts, ∀ t2 ∈ ts,
      genGalName k2 t1 ≠ genGalName κ t2)
    (Hhg : ∀ t ∈ ts, ∀ k ∈ hodProfKeys bp t, ∀ t2 ∈ ts,
      genHaloName k ≠ genGalName κ t2)
    (Hgh : ∀ t ∈ ts, ∀ k ∈ hodProfKeys bp t, genGalName k t ≠ genHaloName κ)
    (Hhh : ∀ t ∈ ts, ∀ k ∈ hodProfKeys bp t, genHaloName k = genHaloName κ → k = κ)
    (Hmg : ∀ t ∈ ts, ∀ t2 ∈ ts, mcOccName t ≠ genGalName κ t2 ∧
      meanOccName t ≠ genGalName κ t2 ∧ posName t ≠ genGalName κ t2)
    (Hmh : ∀ t ∈ ts, mcOccName t ≠ genHaloName κ ∧ meanOccName t ≠ genHaloName κ ∧
      posName t ≠ genHaloName κ)
    (Hfh : alookup (genHaloName κ) a0 = none)
    (Hfg : ∀ t ∈ ts, t ≠ t0 → alookup (genGalName κ t) a0 = none) :
    alookup (genHaloName κ) A = some (AttrVal.func h) ∧
    alookup (genGalName κ t0) A = some (AttrVal.func g) ∧
    ∀ t2 ∈ ts, t2 ≠ t0 →
      alookup (genGalName κ t2) A = some (AttrVal.func h) ∧
      alookup (genGalName κ t2) A = alookup (genHaloName κ) A := by
  unfold setPrimaryBehaviorsHod at hA
  cases hL1 : bindLoop1 bp ts a0 with
  | error e => rw [hL1] at hA; exact Except.noConfusion hA
  | ok A1 =>
    rw [hL1] at hA
    obtain ⟨l1, l2, hsplit⟩ := List.append_of_mem ht0
    have hsub1 : ∀ z ∈ l1, z ∈ ts := by
      intro z hz; rw [hsplit]; exact List.mem_append_left _ hz
    have hsub2 : ∀ z ∈ l2, z ∈ ts := by
      intro z hz; rw [hsplit]; exact List.mem_append_right _ (List.mem_cons_of_mem _ hz)
    have hndsp := hnd
    rw [hsplit] at hndsp
    have ht0l1 : t0 ∉ l1 := by
      intro hmem
      exact (List.nodup_append.mp hndsp).2.2 hmem (List.mem_cons_self _ _)
    have ht0l2 : t0 ∉ l2 := by
      have hx := (List.nodup_append.mp hndsp).2.1
      rw [List.nodup_cons] at hx
      exact hx.1
    have hL1s := hL1
    rw [hsplit, bindLoop1_append] at hL1s
    cases hb1 : bindLoop1 bp l1 a0 with
    | error e => rw [hb1] at hL1s; exact Except.noConfusion hL1s
    | ok b1 =>
      rw [hb1] at hL1s
      have hstep : (match bindGalType bp t0 b1 with
          | .ok a3 => bindLoop1 bp l2 a3
          | .error e => (.error e : Except PyErr Attrs)) = .ok A1 := hL1s
      cases hbg : bindGalType bp t0 b1 with
      | error e => rw [hbg] at hstep; exact Except.noConfusion hstep
      | ok b2 =>
        rw [hbg] at hstep
        have hhb1 : alookup (genHaloName κ) b1 = none := by
          have hfr := bindLoop1_frame bp l1 a0 b1 hb1 (genHaloName κ) (by
            intro t ht
            have hts := hsub1 t ht
            have htne : t ≠ t0 := fun he => ht0l1 (he ▸ ht)
            refine ⟨Ne.symm (Hmh t hts).1, Ne.symm (Hmh t hts).2.1,
              Ne.symm (Hmh t hts).2.2, ?_⟩
            intro k hk
            refine ⟨?_, Ne.symm (Hgh t hts k hk)⟩
            intro he
            have hκk : κ ∈ hodProfKeys bp t := by
              rw [← Hhh t hts k hk he.symm]
              exact hk
            exact honly t hts htne hκk)
          rw [hfr]
          exact Hfh
        obtain ⟨hb2g, hb2h⟩ := bindGalType_track bp t0 κ p g h b1 b2 hbg hprof hg hh
          hκ hndk
          (fun k hk he => (Hgg t0 ht0 k hk t0 ht0 he).1)
          (fun k hk => Hhg t0 ht0 k hk t0 ht0)
          (fun k hk => Hhh t0 ht0 k hk)
          (fun k hk => Hgh t0 ht0 k hk)
          (Hmh t0 ht0).1 (Hmh t0 ht0).2.1 (Hmh t0 ht0).2.2
          (Hmg t0 ht0 t0 ht0).2.2
          hhb1
        have hA1h : alookup (genHaloName κ) A1 = some (AttrVal.func h) := by
          have hfr := bindLoop1_frame bp l2 b2 A1 hstep (genHaloName κ) (by
            intro t ht
            have hts := hsub2 t ht
            have htne : t ≠ t0 := fun he => ht0l2 (he ▸ ht)
            refine ⟨Ne.symm (Hmh t hts).1, Ne.symm (Hmh t hts).2.1,
              Ne.symm (Hmh t hts).2.2, ?_⟩
            intro k hk
            refine ⟨?_, Ne.symm (Hgh t hts k hk)⟩
            intro he
            have hκk : κ ∈ hodProfKeys bp t := by
              rw [← Hhh t hts k hk he.symm]
              exact hk
            exact honly t hts htne hκk)
          rw [hfr]
          exact hb2h
        have hA1g : alookup (genGalName κ t0) A1 = some (AttrVal.func g) := by
          have hfr := bindLoop1_frame bp l2 b2 A1 hstep (genGalName κ t0) (by
            intro t ht
            have hts := hsub2 t ht
            have htne : t ≠ t0 := fun he => ht0l2 (he ▸ ht)
            refine ⟨Ne.symm (Hmg t hts t0 ht0).1, Ne.symm (Hmg t hts t0 ht0).2.1,
              Ne.symm (Hmg t hts t0 ht0).2.2, ?_⟩
            intro k hk
            refine ⟨Ne.symm (Hhg t hts k hk t0 ht0), ?_⟩
            intro he
            exact htne (Hgg t hts k hk t0 ht0 he.symm).2)
          rw [hfr]
          exact hb2g
        have hA1t : ∀ t2 ∈ ts, t2 ≠ t0 → alookup (genGalName κ t2) A1 = none := by
          intro t2 ht2 hne
          have hfr := bindLoop1_frame bp ts a0 A1 hL1 (genGalName κ t2) (by
            intro t ht
            refine ⟨Ne.symm (Hmg t ht t2 ht2).1, Ne.symm (Hmg t ht t2 ht2).2.1,
              Ne.symm (Hmg t ht t2 ht2).2.2, ?_⟩
            intro k hk
            refine ⟨Ne.symm (Hhg t ht k hk t2 ht2), ?_⟩
            intro he
            have hkt := Hgg t ht k hk t2 ht2 he.symm
            have hκk : κ ∈ hodProfKeys bp t2 := by
              rw [← hkt.1, ← hkt.2]
              exact hk
            exact honly t2 ht2 hne hκk)
          rw [hfr]
          exact Hfg t2 ht2 hne
        refine ⟨bindLoop2_mono ts ppks A1 A hA _ _ hA1h,
                bindLoop2_mono ts ppks A1 A hA _ _ hA1g, ?_⟩
        intro t2 ht2 hne
        have hval := bindLoop2_value ts κ ppks A1 A (AttrVal.func h) hA hκpp Hgg2
          hA1h t2 ht2 (Or.inl (hA1t t2 ht2 hne))
        refine ⟨hval, ?_⟩
        rw [hval, bindLoop2_mono ts ppks A1 A hA _ _ hA1h]

/-- Witness for C8 on the two-type example blueprint: `'conc'` is declared only by
centrals; after binding, `conc_halos` holds the halo-model accessor object 201,
`conc_centrals` keeps centrals' own accessor object 101, and the fallback gives
satellites `conc_satellites` bound to exactly the shared object 201. -/
theorem c8_witness :
    setPrimaryBehaviorsHod exBpC8 ["centrals", "satellites"] ["conc"] [] = .ok c8A ∧
    (alookup (genHaloName "conc") c8A = some (AttrVal.func 201) ∧
     alookup (genGalName "conc" "centrals") c8A = some (AttrVal.func 101) ∧
     ∀ t2 ∈ ["centrals", "satellites"], t2 ≠ "centrals" →
       alookup (genGalName "conc" t2) c8A = some (AttrVal.func 201) ∧
       alookup (genGalName "conc" t2) c8A = alookup (genHaloName "conc") c8A) := by
  refine ⟨rfl, ?_⟩
  exact c8 exBpC8 ["centrals", "satellites"] ["conc"] [] c8A "centrals" "conc"
    exProfC8c 101 201
    rfl
    (by decide) (by decide) (by decide)
    rfl rfl rfl
    (by decide) (by decide)
    (by decide)
    (by decide) (by decide) (by decide) (by decide) (by decide)
    (by decide) (by decide)
    rfl (by decide)
